import Mathlib

/-!
Shallow embedding of the LoL eSports data pipeline of this repository
(directory `src/manusia`): the `DataLoader` preprocessing pipeline and split
(`data_loader.py`), the win-rate computation of `StatsAnalyzer`
(`stats_analyzer.py`), the record lookup route (`records.py`), and the
histogram/bar/pie builders of `DataVisualizer` (`data_visualizer.py`).

A pandas `DataFrame` is modelled column-wise: a frame is a list of columns,
each column carrying a name, a dtype tag and a list of cells.  A cell is a
rational number, a string, a boolean, a datetime (kept as its string form,
since no claim depends on date arithmetic) or the missing marker `NaN`/`NaT`
(`Cell.missing`).  Machine floats are modelled as rationals: every numeric
value reachable by the pipeline claims is produced by exact arithmetic on
CSV inputs.  Group order in `groupby`-style results and tie order inside
`value_counts` are abstracted to a deterministic order; every theorem below
is order-independent (membership, lengths, sums and bounds only).
-/

inductive Dtype : Type
  | float64
  | int64
  | obj
  | bool
  | datetime
deriving DecidableEq, Repr

inductive Cell : Type
  | num (q : ℚ)
  | str (s : String)
  | bool (b : Bool)
  | dt (s : String)
  | missing
deriving DecidableEq, Repr

structure Col : Type where
  name : String
  dtype : Dtype
  cells : List Cell
deriving DecidableEq, Repr

/-- A pandas DataFrame, column-wise. -/
abbrev DataFrame := List Col

def columnsOf (df : DataFrame) : List String := df.map (fun c => c.name)

def getCol (df : DataFrame) (n : String) : Option Col :=
  df.find? (fun c => c.name = n)

def colCells (df : DataFrame) (n : String) : List Cell :=
  match getCol df n with
  | some c => c.cells
  | none => []

def nrows (df : DataFrame) : Nat :=
  match df with
  | [] => 0
  | c :: _ => c.cells.length

def cellAt (df : DataFrame) (n : String) (i : Nat) : Cell :=
  (colCells df n).getD i Cell.missing

/-- The dtypes selected by `select_dtypes(include=['float64', 'int64'])`. -/
def numericDtype : Dtype → Bool
  | .float64 => true
  | .int64 => true
  | _ => false

/-- Which cells a column of a given dtype may hold in a well-typed frame
(numeric and object and datetime columns may hold `NaN`/`NaT`). -/
def cellMatches : Dtype → Cell → Bool
  | .float64, .num _ => true
  | .float64, .missing => true
  | .int64, .num _ => true
  | .int64, .missing => true
  | .obj, .str _ => true
  | .obj, .missing => true
  | .bool, .bool _ => true
  | .datetime, .dt _ => true
  | .datetime, .missing => true
  | _, _ => false

/-- Well-typed frame: all columns have the frame's row count and only hold
cells matching their dtype (what an actual `pd.read_csv` result satisfies). -/
def wfFrame (df : DataFrame) : Bool :=
  df.all (fun c => c.cells.length = nrows df && c.cells.all (cellMatches c.dtype))

/-! ### `DataLoader._handle_missing_values` -/

/-- `fillna(v)` on one cell. -/
def fillCell (v : Cell) : Cell → Cell
  | .missing => v
  | .num q => .num q
  | .str s => .str s
  | .bool b => .bool b
  | .dt s => .dt s

/-- One column under `_handle_missing_values`: numeric columns get
`fillna(0)`, object columns get `fillna('unknown')`, others are untouched. -/
def handleCol (c : Col) : Col :=
  if numericDtype c.dtype then
    ⟨c.name, c.dtype, c.cells.map (fillCell (Cell.num 0))⟩
  else if c.dtype = Dtype.obj then
    ⟨c.name, c.dtype, c.cells.map (fillCell (Cell.str "unknown"))⟩
  else c

def handle_missing_values (df : DataFrame) : DataFrame := df.map handleCol

/-! ### `DataLoader._convert_data_types` -/

def boolColNames : List String :=
  ["playoffs", "firstblood", "firstbloodkill", "firstbloodassist", "firstbloodvictim"]

/-- `pd.to_datetime` on one cell; the parsed value is kept as its source
string, which is enough for every claim (none inspects date structure). -/
def toDatetimeCell : Cell → Cell
  | .str s => .dt s
  | .dt s => .dt s
  | .num q => .dt (toString q)
  | .bool b => .dt (toString b)
  | .missing => .missing

/-- `astype(bool)` on one cell (Python truthiness; `bool(nan)` is `True`). -/
def toBoolCell : Cell → Cell
  | .num q => if q = 0 then .bool false else .bool true
  | .str s => if s = "" then .bool false else .bool true
  | .bool b => .bool b
  | .dt _ => .bool true
  | .missing => .bool true

def convertCol (c : Col) : Col :=
  if c.name = "date" then ⟨c.name, Dtype.datetime, c.cells.map toDatetimeCell⟩
  else if c.name ∈ boolColNames then ⟨c.name, Dtype.bool, c.cells.map toBoolCell⟩
  else c

def convert_data_types (df : DataFrame) : DataFrame := df.map convertCol

/-! ### `DataLoader._add_derived_features` -/

/-- The KDA lambda `(row.kills + row.assists) / max(1, row.deaths)`;
float NaN propagates through the arithmetic. -/
def kdaCell (k d a : Cell) : Cell :=
  match k, d, a with
  | .num kq, .num dq, .num aq => .num ((kq + aq) / max 1 dq)
  | _, _, _ => .missing

/-- The kill-participation lambda
`(row.kills + row.assists) / max(1, row.teamkills) if row.teamkills > 0 else 0`;
a NaN `teamkills` fails the `> 0` comparison and yields `0`. -/
def kpCell (k a t : Cell) : Cell :=
  match t with
  | .num tq =>
      if 0 < tq then
        match k, a with
        | .num kq, .num aq => .num ((kq + aq) / max 1 tq)
        | _, _ => .missing
      else .num 0
  | _ => .num 0

/-- `df[n] = series`: overwrite an existing column in place, else append. -/
def setCol (df : DataFrame) (n : String) (d : Dtype) (cs : List Cell) : DataFrame :=
  if (getCol df n).isSome then
    df.map (fun c => if c.name = n then ⟨n, d, cs⟩ else c)
  else df ++ [⟨n, d, cs⟩]

def kdaRow (df : DataFrame) (i : Nat) : Cell :=
  kdaCell (cellAt df "kills" i) (cellAt df "deaths" i) (cellAt df "assists" i)

def kpRow (df : DataFrame) (i : Nat) : Cell :=
  kpCell (cellAt df "kills" i) (cellAt df "assists" i) (cellAt df "teamkills" i)

/-- The series `df.apply(kda-lambda, axis=1)`. -/
def kdaSeries (df : DataFrame) : List Cell := (List.range (nrows df)).map (kdaRow df)

/-- The series `df.apply(kill-participation-lambda, axis=1)`. -/
def kpSeries (df : DataFrame) : List Cell := (List.range (nrows df)).map (kpRow df)

/-- First guarded assignment of `_add_derived_features`:
`df['kda'] = ...` when kills/deaths/assists are all present. -/
def addKda (df : DataFrame) : DataFrame :=
  if "kills" ∈ columnsOf df ∧ "deaths" ∈ columnsOf df ∧ "assists" ∈ columnsOf df then
    setCol df "kda" Dtype.float64 (kdaSeries df)
  else df

/-- Second guarded assignment of `_add_derived_features`:
`df['kill_participation'] = ...` when kills/assists/teamkills are all present. -/
def addKp (df : DataFrame) : DataFrame :=
  if "kills" ∈ columnsOf df ∧ "assists" ∈ columnsOf df ∧ "teamkills" ∈ columnsOf df then
    setCol df "kill_participation" Dtype.float64 (kpSeries df)
  else df

def add_derived_features (df : DataFrame) : DataFrame := addKp (addKda df)

/-- `DataLoader.preprocess_data`: the `reduce` over the three-stage pipeline. -/
def preprocess_data (df : DataFrame) : DataFrame :=
  add_derived_features (convert_data_types (handle_missing_values df))

/-! ### `DataLoader._split_data` -/

def keepIdx (l : List Cell) (keep : Nat → Bool) : List Cell :=
  (l.enum.filter (fun p => keep p.1)).map (fun p => p.2)

/-- Boolean-mask row selection `df[mask]`. -/
def filterRows (df : DataFrame) (keep : Nat → Bool) : DataFrame :=
  df.map (fun c => ⟨c.name, c.dtype, keepIdx c.cells keep⟩)

/-- `self.data[self.data['playername'].notna()]`. -/
def split_player_data (df : DataFrame) : DataFrame :=
  filterRows df (fun i => decide (cellAt df "playername" i ≠ Cell.missing))

/-- `self.data[self.data['playername'].isna() & self.data['teamname'].notna()]`. -/
def split_team_data (df : DataFrame) : DataFrame :=
  filterRows df (fun i =>
    decide (cellAt df "playername" i = Cell.missing) &&
    decide (cellAt df "teamname" i ≠ Cell.missing))

/-! ### `DataLoader.get_record_by_id` and the `records.py` route -/

def firstMatchIdx (df : DataFrame) (id : String) : Option Nat :=
  (List.range (nrows df)).find? (fun i => decide (cellAt df "gameid" i = Cell.str id))

/-- `record.iloc[0].to_dict()`. -/
def rowRecord (df : DataFrame) (i : Nat) : List (String × Cell) :=
  df.map (fun c => (c.name, c.cells.getD i Cell.missing))

def get_record_by_id (df : DataFrame) (id : String) : Option (List (String × Cell)) :=
  (firstMatchIdx df id).map (rowRecord df)

inductive Json : Type
  | null
  | num (q : ℚ)
  | str (s : String)
  | bool (b : Bool)
deriving DecidableEq, Repr

/-- The JSON normalization loop of `records.get_record`: `pd.isna` values
become `None`, timestamps become their string form, boxed numerics become
plain numbers via `.item()`. -/
def jsonSafeCell : Cell → Json
  | .missing => .null
  | .dt s => .str s
  | .num q => .num q
  | .str s => .str s
  | .bool b => .bool b

inductive RecordResponse : Type
  | success (fields : List (String × Json))
  | error (message : String)
deriving DecidableEq, Repr

/-- The `/record/<id>` endpoint body (`records.py`). -/
def get_record (df : DataFrame) (id : String) : RecordResponse :=
  match get_record_by_id df id with
  | none => .error ("Registro com ID " ++ id ++ " não encontrado")
  | some r => .success (r.map (fun p => (p.1, jsonSafeCell p.2)))

/-! ### `StatsAnalyzer.calculate_win_rates` -/

/-- A non-null numeric value, as seen by pandas `sum`/`count` aggregation. -/
def resultVal : Cell → Option ℚ
  | .num q => some q
  | _ => none

/-- `sum` aggregation over a numeric series (NaN skipped). -/
def winsOf (cells : List Cell) : ℚ := (cells.filterMap resultVal).sum

/-- `count` aggregation over a numeric series (NaN skipped). -/
def countOf (cells : List Cell) : Nat := (cells.filterMap resultVal).length

/-- The distinct non-missing values of a series (`groupby` keys drop NaN). -/
def distinctVals : List Cell → List Cell
  | [] => []
  | c :: t =>
      if c = Cell.missing ∨ c ∈ distinctVals t then distinctVals t
      else c :: distinctVals t

/-- The row indices of group `k` of `df.groupby(g)`. -/
def groupRows (df : DataFrame) (g : String) (k : Cell) : List Nat :=
  (List.range (nrows df)).filter (fun i => decide (cellAt df g i = k))

def groupResultCells (df : DataFrame) (g : String) (k : Cell) : List Cell :=
  (groupRows df g k).map (fun i => cellAt df "result" i)

structure WinRateEntry : Type where
  key : Cell
  games_played : Nat
  wins : ℚ
  win_rate : Cell
deriving DecidableEq, Repr

def mkWinRateEntry (df : DataFrame) (g : String) (k : Cell) : WinRateEntry :=
  { key := k
    games_played := countOf (groupResultCells df g k)
    wins := winsOf (groupResultCells df g k)
    win_rate :=
      if countOf (groupResultCells df g k) = 0 then Cell.missing
      else Cell.num (winsOf (groupResultCells df g k) / (countOf (groupResultCells df g k) : ℚ)) }

/-- `StatsAnalyzer.calculate_win_rates`: per group, `games_played = count`,
`wins = sum`, `win_rate = wins / games_played` (`0/0` is pandas NaN). -/
def calculate_win_rates (df : DataFrame) (g : String) : List WinRateEntry :=
  if g ∈ columnsOf df ∧ "result" ∈ columnsOf df then
    (distinctVals (colCells df g)).map (mkWinRateEntry df g)
  else []

/-! ### `DataVisualizer`: histogram, bar and pie builders -/

def countVal (cells : List Cell) (v : Cell) : Nat :=
  (cells.filter (fun c => decide (c = v))).length

/-- Descending-count order used to model `value_counts()` / `nlargest`. -/
def countDesc (a b : Cell × Nat) : Prop := b.2 ≤ a.2

instance : DecidableRel countDesc := fun a b => Nat.decLe b.2 a.2

instance : IsTotal (Cell × Nat) countDesc := ⟨fun a b => le_total b.2 a.2⟩

instance : IsTrans (Cell × Nat) countDesc := ⟨fun _ _ _ h1 h2 => le_trans h2 h1⟩

/-- `series.value_counts()`: distinct non-null values with multiplicities,
sorted by descending count. -/
def value_counts (cells : List Cell) : List (Cell × Nat) :=
  List.insertionSort countDesc ((distinctVals cells).map (fun v => (v, countVal cells v)))

/-- `series.unique()`: distinct values, NaN included. -/
def uniqueCells : List Cell → List Cell
  | [] => []
  | c :: t => if c ∈ uniqueCells t then uniqueCells t else c :: uniqueCells t

inductive Artifact : Type
  | placeholder (msg : String)
  | histogram (column : String) (values : List Cell)
  | barChart (column : String) (groups : List (Cell × Nat))
  | pieChart (column : String) (groups : List (Cell × Nat))
  | scatterChart (x : String) (y : String) (hue : Option String) (capped : Bool)
  | boxChart (value : String) (group : Option String) (capped : Bool)
  | heatmapChart (cols : List String)
deriving DecidableEq, Repr

/-- `DataVisualizer.create_bar_chart`: only column existence is checked;
the chart shows `value_counts().nlargest(top_n)`. -/
def create_bar_chart (df : DataFrame) (column : String) (top_n : Nat) : Artifact :=
  if column ∈ columnsOf df then
    .barChart column ((value_counts (colCells df column)).take top_n)
  else .placeholder "Dados não disponíveis"

def sumCounts (l : List (Cell × Nat)) : Nat := (l.map (fun p => p.2)).sum

/-- `DataVisualizer.create_pie_chart`: top `top_n` counts, plus an `Outros`
bucket `value_counts().sum() - top.sum()` when `len(unique()) > top_n`. -/
def create_pie_chart (df : DataFrame) (column : String) (top_n : Nat) : Artifact :=
  if column ∈ columnsOf df then
    let vc := value_counts (colCells df column)
    let top := vc.take top_n
    let groups :=
      if top_n < (uniqueCells (colCells df column)).length then
        top ++ [(Cell.str "Outros", sumCounts vc - sumCounts top)]
      else top
    .pieChart column groups
  else .placeholder "Dados não disponíveis"

/-- Requirement that the derived-feature source columns, where present,
are numeric (their semantic type in the data model). -/
def sourceColsNumeric (df : DataFrame) : Bool :=
  ["kills", "deaths", "assists", "teamkills"].all (fun n =>
    match getCol df n with
    | some c => numericDtype c.dtype
    | none => true)

/-! ### Concrete frames used by counterexamples and witnesses -/

def dfC1 : DataFrame :=
  [⟨"gameid", Dtype.obj, [Cell.str "G1"]⟩,
   ⟨"playername", Dtype.obj, [Cell.missing]⟩,
   ⟨"teamname", Dtype.obj, [Cell.str "T1"]⟩,
   ⟨"result", Dtype.float64, [Cell.num 1]⟩]

def dfC2 : DataFrame :=
  [⟨"kills", Dtype.float64, [Cell.missing]⟩,
   ⟨"playername", Dtype.obj, [Cell.missing]⟩]

def dfC3 : DataFrame :=
  [⟨"kills", Dtype.float64, [Cell.num 5]⟩,
   ⟨"deaths", Dtype.float64, [Cell.num 0]⟩,
   ⟨"assists", Dtype.float64, [Cell.num 3]⟩]

def dfC4 : DataFrame :=
  [⟨"kills", Dtype.float64, [Cell.num 1]⟩,
   ⟨"assists", Dtype.float64, [Cell.num 0]⟩,
   ⟨"teamkills", Dtype.float64, [Cell.num (1/2)]⟩]

def dfC6 : DataFrame :=
  [⟨"champion", Dtype.obj,
    [Cell.str "Ahri", Cell.str "Ahri", Cell.str "Zed",
     Cell.str "Ahri", Cell.str "Zed", Cell.str "Lux"]⟩]

def dfC7 : DataFrame :=
  [⟨"teamname", Dtype.obj, [Cell.str "A", Cell.str "A", Cell.str "B"]⟩,
   ⟨"result", Dtype.float64, [Cell.num 1, Cell.num 0, Cell.num 1]⟩]

def dfC8 : DataFrame :=
  [⟨"gameid", Dtype.obj, [Cell.str "G0", Cell.str "G1", Cell.str "G1"]⟩,
   ⟨"kills", Dtype.float64, [Cell.num 2, Cell.num 5, Cell.num 7]⟩,
   ⟨"date", Dtype.datetime, [Cell.dt "2022-01-01", Cell.dt "2022-01-02", Cell.dt "2022-01-03"]⟩,
   ⟨"note", Dtype.obj, [Cell.missing, Cell.missing, Cell.str "x"]⟩]

def dfC10 : DataFrame :=
  [⟨"teamname", Dtype.obj, [Cell.str "A", Cell.str "A"]⟩,
   ⟨"result", Dtype.float64, [Cell.num 1, Cell.missing]⟩]

/-! ### Basic frame lemmas -/

theorem getCol_name {df : DataFrame} {n : String} {c : Col} (h : getCol df n = some c) :
    c.name = n := by
  have := List.find?_some h
  exact of_decide_eq_true this

theorem getCol_map (df : DataFrame) (f : Col → Col) (n : String)
    (hf : ∀ c, (f c).name = c.name) :
    getCol (df.map f) n = (getCol df n).map f := by
  unfold getCol
  rw [List.find?_map]
  have hcong : (fun c => decide (c.name = n)) ∘ f = fun c => decide (c.name = n) := by
    funext c
    simp [Function.comp, hf]
  rw [hcong]

theorem columnsOf_map (df : DataFrame) (f : Col → Col)
    (hf : ∀ c, (f c).name = c.name) :
    columnsOf (df.map f) = columnsOf df := by
  unfold columnsOf
  rw [List.map_map]
  exact List.map_congr_left (fun c _ => hf c)

theorem nrows_map (df : DataFrame) (f : Col → Col)
    (hf : ∀ c, (f c).cells.length = c.cells.length) :
    nrows (df.map f) = nrows df := by
  cases df with
  | nil => rfl
  | cons c t => exact hf c

theorem mem_columnsOf_iff {df : DataFrame} {n : String} :
    n ∈ columnsOf df ↔ ∃ c ∈ df, c.name = n := by
  unfold columnsOf
  constructor
  · intro h
    rcases List.mem_map.mp h with ⟨c, hc, he⟩
    exact ⟨c, hc, he⟩
  · rintro ⟨c, hc, he⟩
    exact List.mem_map.mpr ⟨c, hc, he⟩

theorem getCol_isSome_of_mem {df : DataFrame} {n : String} (h : n ∈ columnsOf df) :
    (getCol df n).isSome := by
  rcases mem_columnsOf_iff.mp h with ⟨c, hc, he⟩
  unfold getCol
  rw [List.find?_isSome]
  exact ⟨c, hc, by simp [he]⟩

theorem mem_of_getCol_isSome {df : DataFrame} {n : String} (h : (getCol df n).isSome) :
    n ∈ columnsOf df := by
  unfold getCol at h
  rw [List.find?_isSome] at h
  rcases h with ⟨c, hc, hp⟩
  exact mem_columnsOf_iff.mpr ⟨c, hc, of_decide_eq_true hp⟩

theorem handleCol_name (c : Col) : (handleCol c).name = c.name := by
  unfold handleCol
  split <;> try rfl
  split <;> rfl

theorem handleCol_dtype (c : Col) : (handleCol c).dtype = c.dtype := by
  unfold handleCol
  split <;> try rfl
  split <;> rfl

theorem handleCol_length (c : Col) : (handleCol c).cells.length = c.cells.length := by
  unfold handleCol
  split
  · simp
  · split <;> simp

theorem convertCol_name (c : Col) : (convertCol c).name = c.name := by
  unfold convertCol
  split <;> try rfl
  split <;> rfl

theorem convertCol_length (c : Col) : (convertCol c).cells.length = c.cells.length := by
  unfold convertCol
  split
  · simp
  · split <;> simp

theorem convertCol_eq_self {c : Col} (h1 : c.name ≠ "date") (h2 : c.name ∉ boolColNames) :
    convertCol c = c := by
  unfold convertCol
  rw [if_neg h1, if_neg h2]

theorem getCol_handle (df : DataFrame) (n : String) :
    getCol (handle_missing_values df) n = (getCol df n).map handleCol :=
  getCol_map df handleCol n handleCol_name

theorem getCol_convert (df : DataFrame) (n : String) :
    getCol (convert_data_types df) n = (getCol df n).map convertCol :=
  getCol_map df convertCol n convertCol_name

theorem columnsOf_handle (df : DataFrame) :
    columnsOf (handle_missing_values df) = columnsOf df :=
  columnsOf_map df handleCol handleCol_name

theorem columnsOf_convert (df : DataFrame) :
    columnsOf (convert_data_types df) = columnsOf df :=
  columnsOf_map df convertCol convertCol_name

theorem nrows_handle (df : DataFrame) :
    nrows (handle_missing_values df) = nrows df :=
  nrows_map df handleCol handleCol_length

theorem nrows_convert (df : DataFrame) :
    nrows (convert_data_types df) = nrows df :=
  nrows_map df convertCol convertCol_length

/-! ### `setCol` lemmas -/

theorem setCol_replace_name (n : String) (d : Dtype) (cs : List Cell) (c : Col) :
    (if c.name = n then (⟨n, d, cs⟩ : Col) else c).name = c.name := by
  split
  · simp_all
  · rfl

theorem getCol_setCol_ne (df : DataFrame) (m n : String) (d : Dtype) (cs : List Cell)
    (h : n ≠ m) : getCol (setCol df m d cs) n = getCol df n := by
  unfold setCol
  split
  · rw [getCol_map df _ n (setCol_replace_name m d cs)]
    cases hg : getCol df n with
    | none => rfl
    | some c =>
        have hc : c.name = n := getCol_name hg
        have hne : ¬ c.name = m := by rw [hc]; exact h
        simp [hne]
  · unfold getCol
    rw [List.find?_append]
    have h2 : List.find? (fun c => decide (c.name = n)) [(⟨m, d, cs⟩ : Col)] = none := by
      simp [h.symm]
    rw [h2]
    cases List.find? (fun c => decide (c.name = n)) df <;> rfl

theorem getCol_setCol_self (df : DataFrame) (m : String) (d : Dtype) (cs : List Cell) :
    getCol (setCol df m d cs) m = some ⟨m, d, cs⟩ := by
  unfold setCol
  split
  next hs =>
    rw [getCol_map df _ m (setCol_replace_name m d cs)]
    cases hg : getCol df m with
    | none => rw [hg] at hs; simp at hs
    | some c =>
        have hc : c.name = m := getCol_name hg
        simp [hc]
  next hs =>
    unfold getCol
    rw [List.find?_append]
    have h1 : List.find? (fun c => decide (c.name = m)) df = none := by
      cases hg : getCol df m with
      | none => exact hg
      | some c => rw [hg] at hs; simp at hs
    simp [h1]

theorem cellAt_setCol_ne (df : DataFrame) (m n : String) (d : Dtype) (cs : List Cell)
    (i : Nat) (h : n ≠ m) : cellAt (setCol df m d cs) n i = cellAt df n i := by
  unfold cellAt colCells
  rw [getCol_setCol_ne df m n d cs h]

theorem cellAt_setCol_self (df : DataFrame) (m : String) (d : Dtype) (cs : List Cell)
    (i : Nat) : cellAt (setCol df m d cs) m i = cs.getD i Cell.missing := by
  unfold cellAt colCells
  rw [getCol_setCol_self]

theorem mem_columnsOf_setCol_of_mem (df : DataFrame) (m n : String) (d : Dtype)
    (cs : List Cell) (h : n ∈ columnsOf df) : n ∈ columnsOf (setCol df m d cs) := by
  unfold setCol
  split
  · rw [columnsOf_map df _ (setCol_replace_name m d cs)]
    exact h
  · unfold columnsOf
    rw [List.map_append]
    exact List.mem_append_left _ h

theorem mem_columnsOf_setCol_ne (df : DataFrame) (m n : String) (d : Dtype)
    (cs : List Cell) (hne : n ≠ m) :
    n ∈ columnsOf (setCol df m d cs) ↔ n ∈ columnsOf df := by
  constructor
  · intro h
    have hs : (getCol (setCol df m d cs) n).isSome := getCol_isSome_of_mem h
    rw [getCol_setCol_ne df m n d cs hne] at hs
    exact mem_of_getCol_isSome hs
  · exact mem_columnsOf_setCol_of_mem df m n d cs

theorem self_mem_columnsOf_setCol (df : DataFrame) (m : String) (d : Dtype)
    (cs : List Cell) : m ∈ columnsOf (setCol df m d cs) := by
  have hs : (getCol (setCol df m d cs) m).isSome := by
    rw [getCol_setCol_self]
    rfl
  exact mem_of_getCol_isSome hs

theorem nrows_setCol (df : DataFrame) (m : String) (d : Dtype) (cs : List Cell)
    (h : cs.length = nrows df) : nrows (setCol df m d cs) = nrows df := by
  unfold setCol
  split
  · cases df with
    | nil => rfl
    | cons c t =>
        simp only [List.map_cons, nrows]
        split
        · exact h
        · rfl
  · cases df with
    | nil =>
        simp [nrows] at h
        simp [nrows, h]
    | cons c t => rfl

theorem mem_setCol_cases {df : DataFrame} {m : String} {d : Dtype} {cs : List Cell}
    {c : Col} (h : c ∈ setCol df m d cs) : c ∈ df ∨ c = ⟨m, d, cs⟩ := by
  unfold setCol at h
  split at h
  · rcases List.mem_map.mp h with ⟨c0, hc0, he⟩
    by_cases hn : c0.name = m
    · right
      rw [← he, if_pos hn]
    · left
      rw [← he, if_neg hn]
      exact hc0
  · rcases List.mem_append.mp h with h1 | h1
    · exact Or.inl h1
    · right
      simpa using h1

theorem mem_setCol_named {df : DataFrame} {m : String} {d : Dtype} {cs : List Cell}
    {c : Col} (h : c ∈ setCol df m d cs) (hn : c.name = m) : c = ⟨m, d, cs⟩ := by
  unfold setCol at h
  split at h
  · rcases List.mem_map.mp h with ⟨c0, hc0, he⟩
    by_cases hn0 : c0.name = m
    · rw [← he, if_pos hn0]
    · rw [← he, if_neg hn0] at hn
      exact absurd hn hn0
  next hs =>
    rcases List.mem_append.mp h with h1 | h1
    · exfalso
      have : (getCol df m).isSome := getCol_isSome_of_mem (mem_columnsOf_iff.mpr ⟨c, h1, hn⟩)
      rw [Option.isSome_iff_exists] at this
      rcases this with ⟨c2, hc2⟩
      rw [hc2] at hs
      simp at hs
    · simpa using h1

theorem mem_of_mem_setCol_ne {df : DataFrame} {m : String} {d : Dtype} {cs : List Cell}
    {c : Col} (h : c ∈ setCol df m d cs) (hn : c.name ≠ m) : c ∈ df := by
  rcases mem_setCol_cases h with h1 | h1
  · exact h1
  · exfalso
    apply hn
    rw [h1]

theorem setCol_absorb (df : DataFrame) (m : String) (d : Dtype) (cs : List Cell)
    (hmem : m ∈ columnsOf df)
    (hall : ∀ c ∈ df, c.name = m → c = ⟨m, d, cs⟩) :
    setCol df m d cs = df := by
  unfold setCol
  rw [if_pos (getCol_isSome_of_mem hmem)]
  have : ∀ c ∈ df, (if c.name = m then (⟨m, d, cs⟩ : Col) else c) = c := by
    intro c hc
    split
    next hn => exact (hall c hc hn).symm
    next => rfl
  rw [List.map_congr_left this]
  simp

theorem setCol_setCol (df : DataFrame) (m : String) (d : Dtype) (cs : List Cell) :
    setCol (setCol df m d cs) m d cs = setCol df m d cs := by
  apply setCol_absorb
  · exact self_mem_columnsOf_setCol df m d cs
  · intro c hc hn
    exact mem_setCol_named hc hn

/-! ### Idempotence helpers -/

theorem fillCell_fillCell (v : Cell) (hv : v ≠ Cell.missing) (x : Cell) :
    fillCell v (fillCell v x) = fillCell v x := by
  cases x <;> cases v <;> simp_all [fillCell]

theorem handleCol_idem (c : Col) : handleCol (handleCol c) = handleCol c := by
  unfold handleCol
  by_cases h1 : numericDtype c.dtype = true
  · simp only [h1, if_true, List.map_map]
    apply Col.mk.injEq .. |>.mpr
    refine ⟨rfl, rfl, ?_⟩
    apply List.map_congr_left
    intro x _
    exact fillCell_fillCell (Cell.num 0) (by simp) x
  · rw [if_neg h1]
    by_cases h2 : c.dtype = Dtype.obj
    · simp only [h2, if_true, if_neg h1, List.map_map]
      apply Col.mk.injEq .. |>.mpr
      refine ⟨rfl, rfl, ?_⟩
      apply List.map_congr_left
      intro x _
      exact fillCell_fillCell (Cell.str "unknown") (by simp) x
    · rw [if_neg h2, if_neg h1, if_neg h2]

theorem toDatetimeCell_idem (x : Cell) :
    toDatetimeCell (toDatetimeCell x) = toDatetimeCell x := by
  cases x <;> rfl

theorem toBoolCell_idem (x : Cell) : toBoolCell (toBoolCell x) = toBoolCell x := by
  cases x with
  | num q => by_cases h : q = 0 <;> simp [toBoolCell, h]
  | str s => by_cases h : s = "" <;> simp [toBoolCell, h]
  | bool b => rfl
  | dt s => rfl
  | missing => rfl

theorem convertCol_idem (c : Col) : convertCol (convertCol c) = convertCol c := by
  by_cases h1 : c.name = "date"
  · simp only [convertCol, h1, if_true, List.map_map]
    congr 1
    exact List.map_congr_left fun x _ => toDatetimeCell_idem x
  · by_cases h2 : c.name ∈ boolColNames
    · simp only [convertCol, if_neg h1, if_pos h2, List.map_map]
      congr 1
      exact List.map_congr_left fun x _ => toBoolCell_idem x
    · simp only [convertCol, if_neg h1, if_neg h2]

/-! ### `add_derived_features` helpers -/

theorem cellAt_setCol_kda_src (df : DataFrame) (d : Dtype) (cs : List Cell) (n : String)
    (i : Nat) (hn : n ∈ (["kills", "deaths", "assists", "teamkills"] : List String)) :
    cellAt (setCol df "kda" d cs) n i = cellAt df n i := by
  apply cellAt_setCol_ne
  simp only [List.mem_cons, List.not_mem_nil, or_false] at hn
  rcases hn with h | h | h | h <;> subst h <;> decide

theorem cellAt_setCol_kp_src (df : DataFrame) (d : Dtype) (cs : List Cell) (n : String)
    (i : Nat) (hn : n ∈ (["kills", "deaths", "assists", "teamkills"] : List String)) :
    cellAt (setCol df "kill_participation" d cs) n i = cellAt df n i := by
  apply cellAt_setCol_ne
  simp only [List.mem_cons, List.not_mem_nil, or_false] at hn
  rcases hn with h | h | h | h <;> subst h <;> decide

theorem kdaSeries_length (df : DataFrame) : (kdaSeries df).length = nrows df := by
  simp [kdaSeries]

theorem kpSeries_length (df : DataFrame) : (kpSeries df).length = nrows df := by
  simp [kpSeries]

theorem nrows_setCol_kda (df : DataFrame) :
    nrows (setCol df "kda" Dtype.float64 (kdaSeries df)) = nrows df :=
  nrows_setCol df "kda" Dtype.float64 (kdaSeries df) (kdaSeries_length df)

theorem kdaRow_setCol_kda (df : DataFrame) (d : Dtype) (cs : List Cell) (i : Nat) :
    kdaRow (setCol df "kda" d cs) i = kdaRow df i := by
  unfold kdaRow
  rw [cellAt_setCol_kda_src df d cs "kills" i (by decide),
    cellAt_setCol_kda_src df d cs "deaths" i (by decide),
    cellAt_setCol_kda_src df d cs "assists" i (by decide)]

theorem kdaRow_setCol_kp (df : DataFrame) (d : Dtype) (cs : List Cell) (i : Nat) :
    kdaRow (setCol df "kill_participation" d cs) i = kdaRow df i := by
  unfold kdaRow
  rw [cellAt_setCol_kp_src df d cs "kills" i (by decide),
    cellAt_setCol_kp_src df d cs "deaths" i (by decide),
    cellAt_setCol_kp_src df d cs "assists" i (by decide)]

theorem kpRow_setCol_kda (df : DataFrame) (d : Dtype) (cs : List Cell) (i : Nat) :
    kpRow (setCol df "kda" d cs) i = kpRow df i := by
  unfold kpRow
  rw [cellAt_setCol_kda_src df d cs "kills" i (by decide),
    cellAt_setCol_kda_src df d cs "assists" i (by decide),
    cellAt_setCol_kda_src df d cs "teamkills" i (by decide)]

theorem kpRow_setCol_kp (df : DataFrame) (d : Dtype) (cs : List Cell) (i : Nat) :
    kpRow (setCol df "kill_participation" d cs) i = kpRow df i := by
  unfold kpRow
  rw [cellAt_setCol_kp_src df d cs "kills" i (by decide),
    cellAt_setCol_kp_src df d cs "assists" i (by decide),
    cellAt_setCol_kp_src df d cs "teamkills" i (by decide)]

theorem kdaSeries_setCol_kda (df : DataFrame) :
    kdaSeries (setCol df "kda" Dtype.float64 (kdaSeries df)) = kdaSeries df := by
  calc kdaSeries (setCol df "kda" Dtype.float64 (kdaSeries df))
      = (List.range (nrows (setCol df "kda" Dtype.float64 (kdaSeries df)))).map
          (kdaRow (setCol df "kda" Dtype.float64 (kdaSeries df))) := rfl
    _ = (List.range (nrows df)).map (kdaRow (setCol df "kda" Dtype.float64 (kdaSeries df))) := by
          rw [nrows_setCol_kda]
    _ = (List.range (nrows df)).map (kdaRow df) :=
          List.map_congr_left fun i _ => kdaRow_setCol_kda df Dtype.float64 _ i
    _ = kdaSeries df := rfl

theorem kpSeries_setCol_kp (df : DataFrame) :
    kpSeries (setCol df "kill_participation" Dtype.float64 (kpSeries df)) = kpSeries df := by
  calc kpSeries (setCol df "kill_participation" Dtype.float64 (kpSeries df))
      = (List.range (nrows (setCol df "kill_participation" Dtype.float64 (kpSeries df)))).map
          (kpRow (setCol df "kill_participation" Dtype.float64 (kpSeries df))) := rfl
    _ = (List.range (nrows df)).map
          (kpRow (setCol df "kill_participation" Dtype.float64 (kpSeries df))) := by
          rw [nrows_setCol df "kill_participation" Dtype.float64 (kpSeries df) (kpSeries_length df)]
    _ = (List.range (nrows df)).map (kpRow df) :=
          List.map_congr_left fun i _ => kpRow_setCol_kp df Dtype.float64 _ i
    _ = kpSeries df := rfl

theorem mem_src_addKda (df : DataFrame) (n : String)
    (hn : n ∈ (["kills", "deaths", "assists", "teamkills"] : List String)) :
    n ∈ columnsOf (addKda df) ↔ n ∈ columnsOf df := by
  unfold addKda
  split
  · apply mem_columnsOf_setCol_ne
    simp only [List.mem_cons, List.not_mem_nil, or_false] at hn
    rcases hn with h | h | h | h <;> subst h <;> decide
  · exact Iff.rfl

theorem mem_src_addKp (df : DataFrame) (n : String)
    (hn : n ∈ (["kills", "deaths", "assists", "teamkills"] : List String)) :
    n ∈ columnsOf (addKp df) ↔ n ∈ columnsOf df := by
  unfold addKp
  split
  · apply mem_columnsOf_setCol_ne
    simp only [List.mem_cons, List.not_mem_nil, or_false] at hn
    rcases hn with h | h | h | h <;> subst h <;> decide
  · exact Iff.rfl

theorem nrows_addKda (df : DataFrame) : nrows (addKda df) = nrows df := by
  unfold addKda
  split
  · exact nrows_setCol_kda df
  · rfl

theorem nrows_addKp (df : DataFrame) : nrows (addKp df) = nrows df := by
  unfold addKp
  split
  · exact nrows_setCol df "kill_participation" Dtype.float64 (kpSeries df) (kpSeries_length df)
  · rfl

theorem kdaRow_addKp (df : DataFrame) (i : Nat) : kdaRow (addKp df) i = kdaRow df i := by
  unfold addKp
  split
  · exact kdaRow_setCol_kp df Dtype.float64 _ i
  · rfl

theorem kdaSeries_addKp (df : DataFrame) : kdaSeries (addKp df) = kdaSeries df := by
  unfold kdaSeries
  rw [nrows_addKp]
  exact List.map_congr_left fun i _ => kdaRow_addKp df i

theorem kpSeries_addKda (df : DataFrame) : kpSeries (addKda df) = kpSeries df := by
  unfold kpSeries
  rw [nrows_addKda]
  apply List.map_congr_left
  intro i _
  unfold addKda
  split
  · exact kpRow_setCol_kda df Dtype.float64 _ i
  · rfl

theorem addKda_idem (df : DataFrame) : addKda (addKda df) = addKda df := by
  by_cases h1 : "kills" ∈ columnsOf df ∧ "deaths" ∈ columnsOf df ∧ "assists" ∈ columnsOf df
  · have e1 : addKda df = setCol df "kda" Dtype.float64 (kdaSeries df) := by
      unfold addKda
      exact if_pos h1
    rw [e1]
    have h1' : "kills" ∈ columnsOf (setCol df "kda" Dtype.float64 (kdaSeries df)) ∧
        "deaths" ∈ columnsOf (setCol df "kda" Dtype.float64 (kdaSeries df)) ∧
        "assists" ∈ columnsOf (setCol df "kda" Dtype.float64 (kdaSeries df)) := by
      refine ⟨?_, ?_, ?_⟩
      · exact (mem_columnsOf_setCol_ne df "kda" "kills" _ _ (by decide)).mpr h1.1
      · exact (mem_columnsOf_setCol_ne df "kda" "deaths" _ _ (by decide)).mpr h1.2.1
      · exact (mem_columnsOf_setCol_ne df "kda" "assists" _ _ (by decide)).mpr h1.2.2
    unfold addKda
    rw [if_pos h1', kdaSeries_setCol_kda]
    exact setCol_setCol df "kda" Dtype.float64 (kdaSeries df)
  · have e1 : addKda df = df := by
      unfold addKda
      exact if_neg h1
    rw [e1, e1]

theorem addKp_idem (df : DataFrame) : addKp (addKp df) = addKp df := by
  by_cases h1 : "kills" ∈ columnsOf df ∧ "assists" ∈ columnsOf df ∧ "teamkills" ∈ columnsOf df
  · have e1 : addKp df = setCol df "kill_participation" Dtype.float64 (kpSeries df) := by
      unfold addKp
      exact if_pos h1
    rw [e1]
    have h1' : "kills" ∈ columnsOf (setCol df "kill_participation" Dtype.float64 (kpSeries df)) ∧
        "assists" ∈ columnsOf (setCol df "kill_participation" Dtype.float64 (kpSeries df)) ∧
        "teamkills" ∈ columnsOf (setCol df "kill_participation" Dtype.float64 (kpSeries df)) := by
      refine ⟨?_, ?_, ?_⟩
      · exact (mem_columnsOf_setCol_ne df "kill_participation" "kills" _ _ (by decide)).mpr h1.1
      · exact (mem_columnsOf_setCol_ne df "kill_participation" "assists" _ _ (by decide)).mpr h1.2.1
      · exact (mem_columnsOf_setCol_ne df "kill_participation" "teamkills" _ _ (by decide)).mpr
          h1.2.2
    unfold addKp
    rw [if_pos h1', kpSeries_setCol_kp]
    exact setCol_setCol df "kill_participation" Dtype.float64 (kpSeries df)
  · have e1 : addKp df = df := by
      unfold addKp
      exact if_neg h1
    rw [e1, e1]

theorem addKda_eq_pos {df : DataFrame}
    (h : "kills" ∈ columnsOf df ∧ "deaths" ∈ columnsOf df ∧ "assists" ∈ columnsOf df) :
    addKda df = setCol df "kda" Dtype.float64 (kdaSeries df) := by
  unfold addKda
  exact if_pos h

theorem addKda_eq_neg {df : DataFrame}
    (h : ¬("kills" ∈ columnsOf df ∧ "deaths" ∈ columnsOf df ∧ "assists" ∈ columnsOf df)) :
    addKda df = df := by
  unfold addKda
  exact if_neg h

theorem addKp_eq_pos {df : DataFrame}
    (h : "kills" ∈ columnsOf df ∧ "assists" ∈ columnsOf df ∧ "teamkills" ∈ columnsOf df) :
    addKp df = setCol df "kill_participation" Dtype.float64 (kpSeries df) := by
  unfold addKp
  exact if_pos h

theorem addKp_eq_neg {df : DataFrame}
    (h : ¬("kills" ∈ columnsOf df ∧ "assists" ∈ columnsOf df ∧ "teamkills" ∈ columnsOf df)) :
    addKp df = df := by
  unfold addKp
  exact if_neg h

theorem mem_columnsOf_addKp_of_mem (df : DataFrame) (n : String) (h : n ∈ columnsOf df) :
    n ∈ columnsOf (addKp df) := by
  unfold addKp
  split
  · exact mem_columnsOf_setCol_of_mem df "kill_participation" n Dtype.float64 _ h
  · exact h

theorem mem_columnsOf_addKda_of_mem (df : DataFrame) (n : String) (h : n ∈ columnsOf df) :
    n ∈ columnsOf (addKda df) := by
  unfold addKda
  split
  · exact mem_columnsOf_setCol_of_mem df "kda" n Dtype.float64 _ h
  · exact h

theorem mem_of_mem_addKp_ne {df : DataFrame} {c : Col} (h : c ∈ addKp df)
    (hn : c.name ≠ "kill_participation") : c ∈ df := by
  unfold addKp at h
  split at h
  · exact mem_of_mem_setCol_ne h hn
  · exact h

theorem cond1_addKp (df : DataFrame) :
    ("kills" ∈ columnsOf (addKp df) ∧ "deaths" ∈ columnsOf (addKp df) ∧
      "assists" ∈ columnsOf (addKp df)) ↔
    ("kills" ∈ columnsOf df ∧ "deaths" ∈ columnsOf df ∧ "assists" ∈ columnsOf df) := by
  rw [mem_src_addKp df "kills" (by decide), mem_src_addKp df "deaths" (by decide),
    mem_src_addKp df "assists" (by decide)]

theorem addKda_stable (df : DataFrame) :
    addKda (addKp (addKda df)) = addKp (addKda df) := by
  by_cases h1 : "kills" ∈ columnsOf df ∧ "deaths" ∈ columnsOf df ∧ "assists" ∈ columnsOf df
  · have h1C : "kills" ∈ columnsOf (addKp (addKda df)) ∧
        "deaths" ∈ columnsOf (addKp (addKda df)) ∧
        "assists" ∈ columnsOf (addKp (addKda df)) := by
      rw [cond1_addKp, addKda_eq_pos h1]
      exact ⟨(mem_columnsOf_setCol_ne df "kda" "kills" _ _ (by decide)).mpr h1.1,
        (mem_columnsOf_setCol_ne df "kda" "deaths" _ _ (by decide)).mpr h1.2.1,
        (mem_columnsOf_setCol_ne df "kda" "assists" _ _ (by decide)).mpr h1.2.2⟩
    rw [addKda_eq_pos h1C]
    have hkser : kdaSeries (addKp (addKda df)) = kdaSeries df := by
      rw [kdaSeries_addKp, addKda_eq_pos h1, kdaSeries_setCol_kda]
    rw [hkser]
    apply setCol_absorb
    · apply mem_columnsOf_addKp_of_mem
      rw [addKda_eq_pos h1]
      exact self_mem_columnsOf_setCol df "kda" _ _
    · intro c hc hn
      have hc2 : c ∈ addKda df := by
        apply mem_of_mem_addKp_ne hc
        rw [hn]
        decide
      rw [addKda_eq_pos h1] at hc2
      exact mem_setCol_named hc2 hn
  · have h1C : ¬("kills" ∈ columnsOf (addKp (addKda df)) ∧
        "deaths" ∈ columnsOf (addKp (addKda df)) ∧
        "assists" ∈ columnsOf (addKp (addKda df))) := by
      rw [cond1_addKp, addKda_eq_neg h1]
      exact h1
    exact addKda_eq_neg h1C

theorem handle_missing_values_idem (df : DataFrame) :
    handle_missing_values (handle_missing_values df) = handle_missing_values df := by
  unfold handle_missing_values
  rw [List.map_map]
  exact List.map_congr_left fun c _ => handleCol_idem c

theorem convert_data_types_idem (df : DataFrame) :
    convert_data_types (convert_data_types df) = convert_data_types df := by
  unfold convert_data_types
  rw [List.map_map]
  exact List.map_congr_left fun c _ => convertCol_idem c

theorem add_derived_features_idem (df : DataFrame) :
    add_derived_features (add_derived_features df) = add_derived_features df := by
  show addKp (addKda (addKp (addKda df))) = addKp (addKda df)
  rw [addKda_stable df]
  exact addKp_idem (addKda df)

/-! ### Pipeline cell-access lemmas -/

theorem wfFrame_spec {df : DataFrame} {c : Col} (hwf : wfFrame df = true) (hc : c ∈ df) :
    c.cells.length = nrows df ∧ ∀ x ∈ c.cells, cellMatches c.dtype x = true := by
  unfold wfFrame at hwf
  rw [List.all_eq_true] at hwf
  have h := hwf c hc
  rw [Bool.and_eq_true] at h
  refine ⟨of_decide_eq_true h.1, ?_⟩
  intro x hx
  exact List.all_eq_true.mp h.2 x hx

theorem numCell_of_matches {d : Dtype} {x : Cell} (hd : numericDtype d = true)
    (hm : cellMatches d x = true) : x = Cell.missing ∨ ∃ q, x = Cell.num q := by
  cases d <;> cases x <;> simp_all [numericDtype, cellMatches]

theorem sourceColsNumeric_spec {df : DataFrame} {n : String} {c : Col}
    (hs : sourceColsNumeric df = true)
    (hn : n ∈ (["kills", "deaths", "assists", "teamkills"] : List String))
    (hg : getCol df n = some c) : numericDtype c.dtype = true := by
  unfold sourceColsNumeric at hs
  rw [List.all_eq_true] at hs
  have h := hs n hn
  rw [hg] at h
  exact h

theorem columnsOf_stage2 (df : DataFrame) :
    columnsOf (convert_data_types (handle_missing_values df)) = columnsOf df := by
  rw [columnsOf_convert, columnsOf_handle]

theorem nrows_stage2 (df : DataFrame) :
    nrows (convert_data_types (handle_missing_values df)) = nrows df := by
  rw [nrows_convert, nrows_handle]

theorem getCol_stage2 (df : DataFrame) (n : String) (hnd : n ≠ "date")
    (hnb : n ∉ boolColNames) :
    getCol (convert_data_types (handle_missing_values df)) n =
      (getCol df n).map handleCol := by
  rw [getCol_convert, getCol_handle]
  cases hg : getCol df n with
  | none => rfl
  | some c =>
      have hname : (handleCol c).name = n := by
        rw [handleCol_name]
        exact getCol_name hg
      simp only [Option.map_some']
      rw [convertCol_eq_self (by rw [hname]; exact hnd) (by rw [hname]; exact hnb)]

theorem handleCol_cells_of_numeric {c : Col} (h : numericDtype c.dtype = true) :
    (handleCol c).cells = c.cells.map (fillCell (Cell.num 0)) := by
  unfold handleCol
  rw [if_pos h]

theorem cellAt_stage2_eq_fill (df : DataFrame) (n : String) (c : Col)
    (hget : getCol df n = some c) (hnum : numericDtype c.dtype = true)
    (hnd : n ≠ "date") (hnb : n ∉ boolColNames) (i : Nat) :
    cellAt (convert_data_types (handle_missing_values df)) n i =
      (c.cells.map (fillCell (Cell.num 0))).getD i Cell.missing := by
  unfold cellAt colCells
  rw [getCol_stage2 df n hnd hnb, hget]
  simp only [Option.map_some']
  rw [handleCol_cells_of_numeric hnum]

theorem cellAt_stage2_fill_at (df : DataFrame) (n : String) (c : Col)
    (hwf : wfFrame df = true) (hget : getCol df n = some c)
    (hnum : numericDtype c.dtype = true) (hnd : n ≠ "date") (hnb : n ∉ boolColNames)
    (i : Nat) (hi : i < nrows df) :
    cellAt (convert_data_types (handle_missing_values df)) n i =
      fillCell (Cell.num 0) (cellAt df n i) := by
  rw [cellAt_stage2_eq_fill df n c hget hnum hnd hnb i]
  have hc : c ∈ df := List.mem_of_find?_eq_some hget
  obtain ⟨hlen, _⟩ := wfFrame_spec hwf hc
  have hi2 : i < c.cells.length := by rw [hlen]; exact hi
  unfold cellAt colCells
  rw [hget]
  rw [List.getD_eq_getElem?_getD, List.getElem?_map, List.getElem?_eq_getElem hi2,
    List.getD_eq_getElem?_getD, List.getElem?_eq_getElem hi2]
  rfl

theorem cellAt_stage2_num (df : DataFrame) (n : String) (c : Col)
    (hwf : wfFrame df = true) (hget : getCol df n = some c)
    (hnum : numericDtype c.dtype = true) (hnd : n ≠ "date") (hnb : n ∉ boolColNames)
    (i : Nat) (hi : i < nrows df) :
    ∃ q, cellAt (convert_data_types (handle_missing_values df)) n i = Cell.num q := by
  rw [cellAt_stage2_fill_at df n c hwf hget hnum hnd hnb i hi]
  have hc : c ∈ df := List.mem_of_find?_eq_some hget
  obtain ⟨hlen, hmatch⟩ := wfFrame_spec hwf hc
  have hi2 : i < c.cells.length := by rw [hlen]; exact hi
  have hcell : cellAt df n i = c.cells[i] := by
    unfold cellAt colCells
    rw [hget, List.getD_eq_getElem?_getD, List.getElem?_eq_getElem hi2]
    rfl
  rw [hcell]
  have hx := hmatch (c.cells[i]) (List.getElem_mem hi2)
  rcases numCell_of_matches hnum hx with h | ⟨q, h⟩
  · rw [h]
    exact ⟨0, rfl⟩
  · rw [h]
    exact ⟨q, rfl⟩

theorem mem_addKda_cases {df : DataFrame} {c : Col} (h : c ∈ addKda df) :
    c ∈ df ∨ (("kills" ∈ columnsOf df ∧ "deaths" ∈ columnsOf df ∧
      "assists" ∈ columnsOf df) ∧ c = ⟨"kda", Dtype.float64, kdaSeries df⟩) := by
  unfold addKda at h
  split at h
  next hcond =>
    rcases mem_setCol_cases h with h1 | h1
    · exact Or.inl h1
    · exact Or.inr ⟨hcond, h1⟩
  next => exact Or.inl h

theorem mem_addKp_cases {df : DataFrame} {c : Col} (h : c ∈ addKp df) :
    c ∈ df ∨ (("kills" ∈ columnsOf df ∧ "assists" ∈ columnsOf df ∧
      "teamkills" ∈ columnsOf df) ∧ c = ⟨"kill_participation", Dtype.float64, kpSeries df⟩) := by
  unfold addKp at h
  split at h
  next hcond =>
    rcases mem_setCol_cases h with h1 | h1
    · exact Or.inl h1
    · exact Or.inr ⟨hcond, h1⟩
  next => exact Or.inl h

theorem convertCol_cases (c : Col) :
    convertCol c = c ∨ (convertCol c).dtype = Dtype.datetime ∨
      (convertCol c).dtype = Dtype.bool := by
  unfold convertCol
  by_cases h1 : c.name = "date"
  · rw [if_pos h1]
    exact Or.inr (Or.inl rfl)
  · rw [if_neg h1]
    by_cases h2 : c.name ∈ boolColNames
    · rw [if_pos h2]
      exact Or.inr (Or.inr rfl)
    · rw [if_neg h2]
      exact Or.inl rfl

theorem fillCell_ne_missing {v : Cell} (hv : v ≠ Cell.missing) (x : Cell) :
    fillCell v x ≠ Cell.missing := by
  cases x <;> simp [fillCell]
  exact hv

theorem missing_not_mem_handleCol (c0 : Col)
    (hd : (numericDtype (handleCol c0).dtype || decide ((handleCol c0).dtype = Dtype.obj)) = true) :
    Cell.missing ∉ (handleCol c0).cells := by
  by_cases h1 : numericDtype c0.dtype = true
  · rw [handleCol_cells_of_numeric h1]
    intro hmem
    rcases List.mem_map.mp hmem with ⟨x, _, he⟩
    exact fillCell_ne_missing (by simp) x he
  · by_cases h2 : c0.dtype = Dtype.obj
    · have hcells : (handleCol c0).cells = c0.cells.map (fillCell (Cell.str "unknown")) := by
        unfold handleCol
        rw [if_neg h1, if_pos h2]
      rw [hcells]
      intro hmem
      rcases List.mem_map.mp hmem with ⟨x, _, he⟩
      exact fillCell_ne_missing (by simp) x he
    · exfalso
      have he : handleCol c0 = c0 := by
        unfold handleCol
        rw [if_neg h1, if_neg h2]
      rw [he] at hd
      rcases Bool.or_eq_true .. |>.mp hd with h | h
      · exact h1 h
      · exact h2 (of_decide_eq_true h)

theorem cellAt_addKda_ne (df : DataFrame) (n : String) (i : Nat) (h1 : n ≠ "kda") :
    cellAt (addKda df) n i = cellAt df n i := by
  unfold addKda
  split
  · exact cellAt_setCol_ne df "kda" n _ _ i h1
  · rfl

theorem cellAt_addKp_ne (df : DataFrame) (n : String) (i : Nat)
    (h2 : n ≠ "kill_participation") :
    cellAt (addKp df) n i = cellAt df n i := by
  unfold addKp
  split
  · exact cellAt_setCol_ne df "kill_participation" n _ _ i h2
  · rfl

theorem cellAt_add_derived_ne (df : DataFrame) (n : String) (i : Nat)
    (h1 : n ≠ "kda") (h2 : n ≠ "kill_participation") :
    cellAt (add_derived_features df) n i = cellAt df n i := by
  show cellAt (addKp (addKda df)) n i = cellAt df n i
  rw [cellAt_addKp_ne (addKda df) n i h2, cellAt_addKda_ne df n i h1]

theorem nrows_add_derived (df : DataFrame) : nrows (add_derived_features df) = nrows df := by
  show nrows (addKp (addKda df)) = nrows df
  rw [nrows_addKp, nrows_addKda]

theorem nrows_preprocess (df : DataFrame) : nrows (preprocess_data df) = nrows df := by
  show nrows (add_derived_features (convert_data_types (handle_missing_values df))) = nrows df
  rw [nrows_add_derived, nrows_stage2]

theorem mem_columnsOf_preprocess_of_mem (df : DataFrame) (n : String)
    (h : n ∈ columnsOf df) : n ∈ columnsOf (preprocess_data df) := by
  show n ∈ columnsOf (addKp (addKda (convert_data_types (handle_missing_values df))))
  apply mem_columnsOf_addKp_of_mem
  apply mem_columnsOf_addKda_of_mem
  rw [columnsOf_stage2]
  exact h

theorem cellAt_preprocess_ne (df : DataFrame) (n : String) (c : Col) (i : Nat)
    (hwf : wfFrame df = true) (hget : getCol df n = some c)
    (hnum : numericDtype c.dtype = true) (hnd : n ≠ "date") (hnb : n ∉ boolColNames)
    (hka : n ≠ "kda") (hkp : n ≠ "kill_participation") (hi : i < nrows df) :
    cellAt (preprocess_data df) n i = fillCell (Cell.num 0) (cellAt df n i) := by
  show cellAt (add_derived_features (convert_data_types (handle_missing_values df))) n i = _
  rw [cellAt_add_derived_ne _ n i hka hkp]
  exact cellAt_stage2_fill_at df n c hwf hget hnum hnd hnb i hi

theorem kdaCell_num (kq dq aq : ℚ) :
    kdaCell (Cell.num kq) (Cell.num dq) (Cell.num aq) = Cell.num ((kq + aq) / max 1 dq) := rfl

theorem kpCell_num (kq aq tq : ℚ) :
    ∃ q, kpCell (Cell.num kq) (Cell.num aq) (Cell.num tq) = Cell.num q := by
  by_cases h : 0 < tq
  · exact ⟨(kq + aq) / max 1 tq, by simp [kpCell, h]⟩
  · exact ⟨0, by simp [kpCell, h]⟩

theorem getCol_some_of_mem {df : DataFrame} {n : String} (h : n ∈ columnsOf df) :
    ∃ c, getCol df n = some c := by
  have := getCol_isSome_of_mem h
  exact Option.isSome_iff_exists.mp this

theorem kdaSeries_stage2_num (df : DataFrame) (hwf : wfFrame df = true)
    (hsrc : sourceColsNumeric df = true)
    (hk : "kills" ∈ columnsOf df) (hd : "deaths" ∈ columnsOf df)
    (ha : "assists" ∈ columnsOf df) :
    ∀ x ∈ kdaSeries (convert_data_types (handle_missing_values df)), ∃ q, x = Cell.num q := by
  intro x hx
  unfold kdaSeries at hx
  rcases List.mem_map.mp hx with ⟨i, hi, he⟩
  have hi2 : i < nrows df := by
    rw [← nrows_stage2 df]
    exact List.mem_range.mp hi
  obtain ⟨ck, hck⟩ := getCol_some_of_mem hk
  obtain ⟨cd, hcd⟩ := getCol_some_of_mem hd
  obtain ⟨ca, hca⟩ := getCol_some_of_mem ha
  obtain ⟨qk, hqk⟩ := cellAt_stage2_num df "kills" ck hwf hck
    (sourceColsNumeric_spec hsrc (by decide) hck) (by decide) (by decide) i hi2
  obtain ⟨qd, hqd⟩ := cellAt_stage2_num df "deaths" cd hwf hcd
    (sourceColsNumeric_spec hsrc (by decide) hcd) (by decide) (by decide) i hi2
  obtain ⟨qa, hqa⟩ := cellAt_stage2_num df "assists" ca hwf hca
    (sourceColsNumeric_spec hsrc (by decide) hca) (by decide) (by decide) i hi2
  rw [← he]
  unfold kdaRow
  rw [hqk, hqd, hqa, kdaCell_num]
  exact ⟨_, rfl⟩

theorem kpSeries_stage2_num (df : DataFrame) (hwf : wfFrame df = true)
    (hsrc : sourceColsNumeric df = true)
    (hk : "kills" ∈ columnsOf df) (ha : "assists" ∈ columnsOf df)
    (ht : "teamkills" ∈ columnsOf df) :
    ∀ x ∈ kpSeries (convert_data_types (handle_missing_values df)), ∃ q, x = Cell.num q := by
  intro x hx
  unfold kpSeries at hx
  rcases List.mem_map.mp hx with ⟨i, hi, he⟩
  have hi2 : i < nrows df := by
    rw [← nrows_stage2 df]
    exact List.mem_range.mp hi
  obtain ⟨ck, hck⟩ := getCol_some_of_mem hk
  obtain ⟨ca, hca⟩ := getCol_some_of_mem ha
  obtain ⟨ct, hct⟩ := getCol_some_of_mem ht
  obtain ⟨qk, hqk⟩ := cellAt_stage2_num df "kills" ck hwf hck
    (sourceColsNumeric_spec hsrc (by decide) hck) (by decide) (by decide) i hi2
  obtain ⟨qa, hqa⟩ := cellAt_stage2_num df "assists" ca hwf hca
    (sourceColsNumeric_spec hsrc (by decide) hca) (by decide) (by decide) i hi2
  obtain ⟨qt, hqt⟩ := cellAt_stage2_num df "teamkills" ct hwf hct
    (sourceColsNumeric_spec hsrc (by decide) hct) (by decide) (by decide) i hi2
  rw [← he]
  unfold kpRow
  rw [hqk, hqa, hqt]
  exact kpCell_num qk qa qt

/-! ### Aggregation lemmas for win rates -/

theorem countOf_eq_length : ∀ {l : List Cell},
    (∀ x ∈ l, ∃ q, x = Cell.num q) → countOf l = l.length
  | [], _ => rfl
  | x :: t, h => by
      rcases h x (List.mem_cons_self x t) with ⟨q, hq⟩
      subst hq
      have ht := @countOf_eq_length t (fun y hy => h y (List.mem_cons_of_mem _ hy))
      show ((Cell.num q :: t).filterMap resultVal).length = t.length + 1
      have e : (Cell.num q :: t).filterMap resultVal = q :: t.filterMap resultVal := rfl
      rw [e, List.length_cons]
      exact congrArg (· + 1) ht

theorem winsOf_cons (c : Cell) (rest : List Cell) :
    winsOf (c :: rest) = ((resultVal c).getD 0) + winsOf rest := by
  unfold winsOf
  cases hc : resultVal c <;> simp [List.filterMap_cons, hc]

theorem winsOf_bounds : ∀ {l : List Cell},
    (∀ x ∈ l, x = Cell.num 0 ∨ x = Cell.num 1) →
    0 ≤ winsOf l ∧ winsOf l ≤ (l.length : ℚ)
  | [], _ => by simp [winsOf]
  | x :: t, h => by
      have ht := @winsOf_bounds t (fun y hy => h y (List.mem_cons_of_mem _ hy))
      rcases h x (List.mem_cons_self x t) with hx | hx <;> subst hx <;>
        rw [winsOf_cons] <;> constructor <;>
        simp only [resultVal, Option.getD_some, List.length_cons] <;> push_cast <;> linarith
          [ht.1, ht.2]

theorem winsOf_map_filter_split (l : List Nat) (f : Nat → Cell) (p : Nat → Bool) :
    winsOf (l.map f) =
      winsOf ((l.filter p).map f) + winsOf ((l.filter (fun j => !p j)).map f) := by
  induction l with
  | nil => simp [winsOf]
  | cons j t ih =>
      rw [List.map_cons, winsOf_cons, ih]
      by_cases hp : p j = true
      · rw [List.filter_cons_of_pos hp, List.filter_cons_of_neg (by rw [hp]; simp),
          List.map_cons, winsOf_cons]
        ring
      · have hp2 : p j = false := by
          revert hp
          cases p j <;> simp
        rw [List.filter_cons_of_neg (by rw [hp2]; simp), List.filter_cons_of_pos (by rw [hp2]; simp),
          List.map_cons, winsOf_cons]
        ring

theorem filter_eq_singleton_of_nodup : ∀ {l : List Nat} {i : Nat}, l.Nodup → i ∈ l →
    l.filter (fun j => decide (j = i)) = [i]
  | [], i, _, hi => absurd hi (List.not_mem_nil i)
  | a :: t, i, hnd, hi => by
      rw [List.filter_cons]
      rcases List.mem_cons.mp hi with h | h
      · subst h
        have hnotin : i ∉ t := (List.nodup_cons.mp hnd).1
        have ht : t.filter (fun j => decide (j = i)) = [] := by
          rw [List.filter_eq_nil_iff]
          intro j hj
          simp only [decide_eq_true_eq]
          intro he
          exact hnotin (he ▸ hj)
        simp [ht]
      · have ha : ¬(a = i) := fun he => (List.nodup_cons.mp hnd).1 (he ▸ h)
        simp only [ha, decide_False, Bool.false_eq_true, if_false]
        exact filter_eq_singleton_of_nodup (List.nodup_cons.mp hnd).2 h

theorem length_split_at_mem {l : List Nat} {i : Nat} (hnd : l.Nodup) (hi : i ∈ l) :
    l.length = (l.filter (fun j => decide (j ≠ i))).length + 1 := by
  have h := @List.length_eq_length_filter_add _ l (fun j => decide (j = i))
  rw [filter_eq_singleton_of_nodup hnd hi] at h
  have e : (l.filter (fun j => !(decide (j = i)))) = l.filter (fun j => decide (j ≠ i)) := by
    apply List.filter_congr
    intro j _
    simp [decide_not]
  rw [e] at h
  rw [h, List.length_singleton]
  ring

theorem winsOf_split_at_mem (l : List Nat) (f : Nat → Cell) (i : Nat)
    (hnd : l.Nodup) (hi : i ∈ l) (hz : f i = Cell.num 0) :
    winsOf (l.map f) = winsOf ((l.filter (fun j => decide (j ≠ i))).map f) := by
  have h := winsOf_map_filter_split l f (fun j => decide (j ≠ i))
  have e : (l.filter (fun j => !(decide (j ≠ i)))) = [i] := by
    have e2 : (l.filter (fun j => !(decide (j ≠ i)))) = l.filter (fun j => decide (j = i)) := by
      apply List.filter_congr
      intro j _
      simp [decide_not]
    rw [e2]
    exact filter_eq_singleton_of_nodup hnd hi
  rw [e] at h
  rw [h, List.map_singleton, winsOf_cons]
  have : winsOf [] = 0 := rfl
  rw [hz]
  simp [resultVal, this]

/-! ### Distinct values and `value_counts` lemmas -/

theorem mem_distinctVals {x : Cell} {l : List Cell} :
    x ∈ distinctVals l ↔ x ∈ l ∧ x ≠ Cell.missing := by
  induction l with
  | nil => simp [distinctVals]
  | cons c t ih =>
      simp only [distinctVals]
      split
      next hcond =>
        rw [ih]
        constructor
        · exact fun h => ⟨List.mem_cons_of_mem c h.1, h.2⟩
        · rintro ⟨h1, h2⟩
          rcases List.mem_cons.mp h1 with he | hm
          · subst he
            rcases hcond with hmiss | hmem
            · exact absurd hmiss h2
            · exact ⟨(ih.mp hmem).1, h2⟩
          · exact ⟨hm, h2⟩
      next hcond =>
        constructor
        · intro h
          rcases List.mem_cons.mp h with he | hm
          · subst he
            refine ⟨List.mem_cons_self x t, ?_⟩
            intro he2
            exact hcond (Or.inl he2)
          · have := ih.mp hm
            exact ⟨List.mem_cons_of_mem c this.1, this.2⟩
        · rintro ⟨h1, h2⟩
          rcases List.mem_cons.mp h1 with he | hm
          · subst he
            exact List.mem_cons_self x _
          · exact List.mem_cons_of_mem c (ih.mpr ⟨hm, h2⟩)

theorem nodup_distinctVals : ∀ (l : List Cell), (distinctVals l).Nodup
  | [] => List.nodup_nil
  | c :: t => by
      simp only [distinctVals]
      split
      · exact nodup_distinctVals t
      next hcond =>
        refine List.nodup_cons.mpr ⟨?_, nodup_distinctVals t⟩
        intro hmem
        exact hcond (Or.inr hmem)

theorem uniqueCells_eq_distinctVals : ∀ {l : List Cell}, Cell.missing ∉ l →
    uniqueCells l = distinctVals l
  | [], _ => rfl
  | c :: t, h => by
      have hc : c ≠ Cell.missing := fun he => h (he ▸ List.mem_cons_self c t)
      have ht := @uniqueCells_eq_distinctVals t (fun hm => h (List.mem_cons_of_mem c hm))
      simp only [uniqueCells, distinctVals, ht]
      by_cases hm : c ∈ distinctVals t
      · rw [if_pos hm, if_pos (Or.inr hm)]
      · rw [if_neg hm, if_neg ?_]
        intro hcontra
        rcases hcontra with h1 | h2
        · exact hc h1
        · exact hm h2

theorem countVal_cons (c : Cell) (t : List Cell) (v : Cell) :
    countVal (c :: t) v = (if c = v then 1 else 0) + countVal t v := by
  unfold countVal
  by_cases hc : c = v
  · rw [List.filter_cons_of_pos (by simp [hc]), if_pos hc, List.length_cons]
    ring
  · rw [List.filter_cons_of_neg (by simp [hc]), if_neg hc]
    ring

theorem filter_mem_cons_length (v : Cell) (ds : List Cell) (hv : v ∉ ds) :
    ∀ (cells : List Cell),
    (cells.filter (fun c => decide (c ∈ v :: ds))).length =
      countVal cells v + (cells.filter (fun c => decide (c ∈ ds))).length
  | [] => rfl
  | c :: t => by
      have ih := filter_mem_cons_length v ds hv t
      rw [countVal_cons]
      by_cases hc : c = v
      · subst hc
        rw [List.filter_cons_of_pos (by simp), List.filter_cons_of_neg (by simp [hv]),
          List.length_cons, if_pos rfl, ih]
        ring
      · by_cases hd : c ∈ ds
        · rw [List.filter_cons_of_pos (by simp [hd]), List.filter_cons_of_pos (by simp [hd]),
            List.length_cons, List.length_cons, if_neg hc, ih]
          ring
        · have hnc : c ∉ v :: ds := by
            intro hmem
            rcases List.mem_cons.mp hmem with h1 | h1
            · exact hc h1
            · exact hd h1
          rw [List.filter_cons_of_neg (by simp [hnc]), List.filter_cons_of_neg (by simp [hd]),
            if_neg hc, ih]
          ring

theorem sum_countVal_of_nodup (cells : List Cell) :
    ∀ (ds : List Cell), ds.Nodup →
    ((ds.map (fun v => countVal cells v)).sum) =
      (cells.filter (fun c => decide (c ∈ ds))).length
  | [], _ => by simp
  | v :: ds, hnd => by
      have ih := sum_countVal_of_nodup cells ds (List.nodup_cons.mp hnd).2
      rw [List.map_cons, List.sum_cons, ih,
        filter_mem_cons_length v ds (List.nodup_cons.mp hnd).1 cells]

theorem filter_mem_distinct (cells : List Cell) :
    cells.filter (fun c => decide (c ∈ distinctVals cells)) =
      cells.filter (fun c => decide (c ≠ Cell.missing)) := by
  apply List.filter_congr
  intro c hc
  rw [decide_eq_decide, mem_distinctVals]
  constructor
  · exact fun h => h.2
  · exact fun h => ⟨hc, h⟩

theorem value_counts_perm (cells : List Cell) :
    List.Perm (value_counts cells)
      ((distinctVals cells).map (fun v => (v, countVal cells v))) :=
  List.perm_insertionSort countDesc _

theorem value_counts_length (cells : List Cell) :
    (value_counts cells).length = (distinctVals cells).length := by
  rw [(value_counts_perm cells).length_eq, List.length_map]

theorem sumCounts_value_counts (cells : List Cell) :
    sumCounts (value_counts cells) =
      (cells.filter (fun c => decide (c ≠ Cell.missing))).length := by
  unfold sumCounts
  rw [List.Perm.sum_eq ((value_counts_perm cells).map (fun p => p.2)), List.map_map]
  have e : ((fun p : Cell × Nat => p.2) ∘ (fun v => (v, countVal cells v))) =
      fun v => countVal cells v := rfl
  rw [e, sum_countVal_of_nodup cells (distinctVals cells) (nodup_distinctVals cells),
    filter_mem_distinct]

theorem value_counts_pairwise (cells : List Cell) :
    List.Pairwise countDesc (value_counts cells) :=
  List.sorted_insertionSort countDesc _

theorem pairwise_take_drop {α : Type} {r : α → α → Prop} {l : List α}
    (h : List.Pairwise r l) (n : Nat) :
    ∀ a ∈ l.take n, ∀ b ∈ l.drop n, r a b := by
  have h2 : List.Pairwise r (l.take n ++ l.drop n) := by
    rw [List.take_append_drop]
    exact h
  exact fun a ha b hb => (List.pairwise_append.mp h2).2.2 a ha b hb

/-! ### Remaining helper lemmas -/

theorem find?_range_first (p : Nat → Bool) : ∀ (n i : Nat), i < n → p i = true →
    (∀ j, j < i → p j = false) → (List.range n).find? p = some i
  | 0, i, hi, _, _ => absurd hi (Nat.not_lt_zero i)
  | n + 1, i, hi, hp, hmin => by
      rw [List.range_succ, List.find?_append]
      by_cases hin : i < n
      · rw [find?_range_first p n i hin hp hmin]
        rfl
      · have hie : i = n := by omega
        subst hie
        have h1 : (List.range i).find? p = none := by
          rw [List.find?_eq_none]
          intro j hj
          rw [List.mem_range] at hj
          rw [hmin j hj]
          simp
        rw [h1]
        simp [hp]

theorem kdaSeries_getD (df : DataFrame) (i : Nat) (hi : i < nrows df) :
    (kdaSeries df).getD i Cell.missing = kdaRow df i := by
  unfold kdaSeries
  rw [List.getD_eq_getElem?_getD, List.getElem?_map, List.getElem?_range hi]
  rfl

theorem kpSeries_getD (df : DataFrame) (i : Nat) (hi : i < nrows df) :
    (kpSeries df).getD i Cell.missing = kpRow df i := by
  unfold kpSeries
  rw [List.getD_eq_getElem?_getD, List.getElem?_map, List.getElem?_range hi]
  rfl

theorem kpRow_addKda (df : DataFrame) (i : Nat) : kpRow (addKda df) i = kpRow df i := by
  unfold addKda
  split
  · exact kpRow_setCol_kda df Dtype.float64 _ i
  · rfl

theorem kpCell_eval (kq aq tq : ℚ) :
    kpCell (Cell.num kq) (Cell.num aq) (Cell.num tq) =
      if 0 < tq then Cell.num ((kq + aq) / max 1 tq) else Cell.num 0 := by
  by_cases h : 0 < tq
  · simp [kpCell, h]
  · simp [kpCell, h]

theorem cond2_addKda (df : DataFrame) :
    ("kills" ∈ columnsOf (addKda df) ∧ "assists" ∈ columnsOf (addKda df) ∧
      "teamkills" ∈ columnsOf (addKda df)) ↔
    ("kills" ∈ columnsOf df ∧ "assists" ∈ columnsOf df ∧ "teamkills" ∈ columnsOf df) := by
  rw [mem_src_addKda df "kills" (by decide), mem_src_addKda df "assists" (by decide),
    mem_src_addKda df "teamkills" (by decide)]

theorem mem_columnsOf_addKp_ne (df : DataFrame) (n : String)
    (h : n ≠ "kill_participation") :
    n ∈ columnsOf (addKp df) ↔ n ∈ columnsOf df := by
  unfold addKp
  split
  · exact mem_columnsOf_setCol_ne df "kill_participation" n _ _ h
  · exact Iff.rfl

theorem mem_columnsOf_addKda_ne (df : DataFrame) (n : String) (h : n ≠ "kda") :
    n ∈ columnsOf (addKda df) ↔ n ∈ columnsOf df := by
  unfold addKda
  split
  · exact mem_columnsOf_setCol_ne df "kda" n _ _ h
  · exact Iff.rfl

theorem cellAt_colCells_getElem (df : DataFrame) (n : String) (c : Col) (i : Nat)
    (hget : getCol df n = some c) (hi : i < c.cells.length) :
    cellAt df n i = c.cells[i] := by
  unfold cellAt colCells
  rw [hget, List.getD_eq_getElem?_getD, List.getElem?_eq_getElem hi]
  rfl

theorem handleCol_cells_of_obj {c : Col} (h : c.dtype = Dtype.obj) :
    (handleCol c).cells = c.cells.map (fillCell (Cell.str "unknown")) := by
  unfold handleCol
  rw [if_neg (by rw [h]; decide), if_pos h]

theorem cellAt_stage2_eq_fill_obj (df : DataFrame) (n : String) (c : Col)
    (hget : getCol df n = some c) (hobj : c.dtype = Dtype.obj)
    (hnd : n ≠ "date") (hnb : n ∉ boolColNames) (i : Nat) :
    cellAt (convert_data_types (handle_missing_values df)) n i =
      (c.cells.map (fillCell (Cell.str "unknown"))).getD i Cell.missing := by
  unfold cellAt colCells
  rw [getCol_stage2 df n hnd hnb, hget]
  simp only [Option.map_some']
  rw [handleCol_cells_of_obj hobj]

theorem cellAt_stage2_fill_at_obj (df : DataFrame) (n : String) (c : Col)
    (hwf : wfFrame df = true) (hget : getCol df n = some c)
    (hobj : c.dtype = Dtype.obj) (hnd : n ≠ "date") (hnb : n ∉ boolColNames)
    (i : Nat) (hi : i < nrows df) :
    cellAt (convert_data_types (handle_missing_values df)) n i =
      fillCell (Cell.str "unknown") (cellAt df n i) := by
  rw [cellAt_stage2_eq_fill_obj df n c hget hobj hnd hnb i]
  have hc : c ∈ df := List.mem_of_find?_eq_some hget
  obtain ⟨hlen, _⟩ := wfFrame_spec hwf hc
  have hi2 : i < c.cells.length := by rw [hlen]; exact hi
  unfold cellAt colCells
  rw [hget]
  rw [List.getD_eq_getElem?_getD, List.getElem?_map, List.getElem?_eq_getElem hi2,
    List.getD_eq_getElem?_getD, List.getElem?_eq_getElem hi2]
  rfl

theorem cellAt_preprocess_ne_obj (df : DataFrame) (n : String) (c : Col) (i : Nat)
    (hwf : wfFrame df = true) (hget : getCol df n = some c)
    (hobj : c.dtype = Dtype.obj) (hnd : n ≠ "date") (hnb : n ∉ boolColNames)
    (hka : n ≠ "kda") (hkp : n ≠ "kill_participation") (hi : i < nrows df) :
    cellAt (preprocess_data df) n i = fillCell (Cell.str "unknown") (cellAt df n i) := by
  show cellAt (add_derived_features (convert_data_types (handle_missing_values df))) n i = _
  rw [cellAt_add_derived_ne _ n i hka hkp]
  exact cellAt_stage2_fill_at_obj df n c hwf hget hobj hnd hnb i hi

/-! ### Claim theorems -/

/-- Claim C9: each pipeline stage (missing-value handling, type conversion,
derived-feature addition) is idempotent: applying a stage to its own output
leaves that output unchanged. -/
theorem claim_C9_stages_idempotent (df : DataFrame) :
    handle_missing_values (handle_missing_values df) = handle_missing_values df ∧
    convert_data_types (convert_data_types df) = convert_data_types df ∧
    add_derived_features (add_derived_features df) = add_derived_features df :=
  ⟨handle_missing_values_idem df, convert_data_types_idem df, add_derived_features_idem df⟩

/-- Claim C1 (code bug evidence): on a frame whose single record has a missing
player name and a non-empty team name, the preprocessing pipeline rewrites the
missing player name to the sentinel string, so `split_data`'s
`playername.notna()` test holds for the record: it lands in the player subset
and the team subset is empty — the record carries no player identity and a
non-empty team identity, yet does not reach the team subset. -/
theorem claim_C1_team_split_empty_after_fill :
    cellAt dfC1 "playername" 0 = Cell.missing ∧
    cellAt (preprocess_data dfC1) "playername" 0 = Cell.str "unknown" ∧
    cellAt (preprocess_data dfC1) "teamname" 0 = Cell.str "T1" ∧
    nrows (split_team_data (preprocess_data dfC1)) = 0 ∧
    nrows (split_player_data (preprocess_data dfC1)) = 1 := by decide

/-- Claim C3: when kills, deaths and assists columns are all present, the
derived-feature stage adds a `kda` column whose value at each record with
numeric entries k, d, a is `(k + a) / max 1 d`; when any of the three columns
is absent, no `kda` column is added. -/
theorem claim_C3_kda_formula (df : DataFrame) :
    (∀ i k d a, i < nrows df →
      "kills" ∈ columnsOf df → "deaths" ∈ columnsOf df → "assists" ∈ columnsOf df →
      cellAt df "kills" i = Cell.num k → cellAt df "deaths" i = Cell.num d →
      cellAt df "assists" i = Cell.num a →
      "kda" ∈ columnsOf (add_derived_features df) ∧
      cellAt (add_derived_features df) "kda" i = Cell.num ((k + a) / max 1 d)) ∧
    (¬("kills" ∈ columnsOf df ∧ "deaths" ∈ columnsOf df ∧ "assists" ∈ columnsOf df) →
      ("kda" ∈ columnsOf (add_derived_features df) ↔ "kda" ∈ columnsOf df)) := by
  constructor
  · intro i k d a hi hk hd ha hck hcd hca
    have hcond : "kills" ∈ columnsOf df ∧ "deaths" ∈ columnsOf df ∧
        "assists" ∈ columnsOf df := ⟨hk, hd, ha⟩
    constructor
    · show "kda" ∈ columnsOf (addKp (addKda df))
      rw [mem_columnsOf_addKp_ne _ _ (by decide), addKda_eq_pos hcond]
      exact self_mem_columnsOf_setCol df "kda" _ _
    · show cellAt (addKp (addKda df)) "kda" i = _
      rw [cellAt_addKp_ne _ _ _ (by decide), addKda_eq_pos hcond,
        cellAt_setCol_self, kdaSeries_getD df i hi]
      unfold kdaRow
      rw [hck, hcd, hca, kdaCell_num]
  · intro hncond
    show "kda" ∈ columnsOf (addKp (addKda df)) ↔ _
    rw [mem_columnsOf_addKp_ne _ _ (by decide), addKda_eq_neg hncond]

/-- Claim C3 witness: the spec scenario record kills=5, deaths=0, assists=3
gets `kda = (5 + 3) / max 1 0 = 8`. -/
theorem claim_C3_witness :
    "kda" ∈ columnsOf (add_derived_features dfC3) ∧
    cellAt (add_derived_features dfC3) "kda" 0 = Cell.num ((5 + 3) / max 1 0) :=
  (claim_C3_kda_formula dfC3).1 0 5 0 3 (by decide) (by decide) (by decide) (by decide)
    (by decide) (by decide) (by decide)

/-- Claim C4 counterexample: at a record with kills=1, assists=0 and
teamkills=1/2 the code stores `(1+0)/max(1, 1/2) = 1`, but the claimed value
`(1+0)/(1/2)` is `2`: the claim as stated is false on this input. -/
theorem claim_C4_counterexample :
    (0 : ℚ) < 1/2 ∧
    cellAt (add_derived_features dfC4) "kill_participation" 0 = Cell.num 1 ∧
    Cell.num 1 ≠ Cell.num ((1 + 0) / ((1 : ℚ)/2)) := by
  refine ⟨by norm_num, ?_, ?_⟩
  · show cellAt (addKp (addKda dfC4)) "kill_participation" 0 = Cell.num 1
    have hcond2 : "kills" ∈ columnsOf (addKda dfC4) ∧ "assists" ∈ columnsOf (addKda dfC4) ∧
        "teamkills" ∈ columnsOf (addKda dfC4) := (cond2_addKda dfC4).mpr (by decide)
    rw [addKp_eq_pos hcond2, cellAt_setCol_self,
      kpSeries_getD _ 0 (by rw [nrows_addKda]; decide), kpRow_addKda]
    unfold kpRow
    have hk : cellAt dfC4 "kills" 0 = Cell.num 1 := rfl
    have ha : cellAt dfC4 "assists" 0 = Cell.num 0 := rfl
    have ht : cellAt dfC4 "teamkills" 0 = Cell.num (1/2) := rfl
    rw [hk, ha, ht, kpCell_eval, if_pos (by norm_num : (0 : ℚ) < 1/2)]
    have hmax : max (1 : ℚ) (1/2) = 1 := max_eq_left (by norm_num)
    rw [hmax]
    norm_num
  · intro he
    have h2 : (1 : ℚ) = (1 + 0) / ((1 : ℚ)/2) := Cell.num.inj he
    norm_num at h2

/-- Claim C4 (amended): when kills, assists and teamkills columns are all
present, the derived stage adds a `kill_participation` column whose value at
each record with numeric entries k, a, t equals `(k + a) / max 1 t` when
`t > 0` and `0` otherwise; when any of the three columns is absent, the
derived column is not added. -/
theorem claim_C4_amended_kp_formula (df : DataFrame) :
    (∀ i k a t, i < nrows df →
      "kills" ∈ columnsOf df → "assists" ∈ columnsOf df → "teamkills" ∈ columnsOf df →
      cellAt df "kills" i = Cell.num k → cellAt df "assists" i = Cell.num a →
      cellAt df "teamkills" i = Cell.num t →
      "kill_participation" ∈ columnsOf (add_derived_features df) ∧
      cellAt (add_derived_features df) "kill_participation" i =
        (if 0 < t then Cell.num ((k + a) / max 1 t) else Cell.num 0)) ∧
    (¬("kills" ∈ columnsOf df ∧ "assists" ∈ columnsOf df ∧ "teamkills" ∈ columnsOf df) →
      ("kill_participation" ∈ columnsOf (add_derived_features df) ↔
        "kill_participation" ∈ columnsOf df)) := by
  constructor
  · intro i k a t hi hk ha ht hck hca hct
    have hcond2 : "kills" ∈ columnsOf (addKda df) ∧ "assists" ∈ columnsOf (addKda df) ∧
        "teamkills" ∈ columnsOf (addKda df) := (cond2_addKda df).mpr ⟨hk, ha, ht⟩
    constructor
    · show "kill_participation" ∈ columnsOf (addKp (addKda df))
      rw [addKp_eq_pos hcond2]
      exact self_mem_columnsOf_setCol _ _ _ _
    · show cellAt (addKp (addKda df)) "kill_participation" i = _
      rw [addKp_eq_pos hcond2, cellAt_setCol_self,
        kpSeries_getD _ i (by rw [nrows_addKda]; exact hi), kpRow_addKda df i]
      unfold kpRow
      rw [hck, hca, hct, kpCell_eval]
  · intro hncond
    have hncond2 : ¬("kills" ∈ columnsOf (addKda df) ∧ "assists" ∈ columnsOf (addKda df) ∧
        "teamkills" ∈ columnsOf (addKda df)) := fun h => hncond ((cond2_addKda df).mp h)
    show "kill_participation" ∈ columnsOf (addKp (addKda df)) ↔ _
    rw [addKp_eq_neg hncond2, mem_columnsOf_addKda_ne _ _ (by decide)]

/-- Claim C4 witness: on the counterexample frame, the amended formula holds:
`kill_participation = (1 + 0) / max 1 (1/2) = 1`. -/
theorem claim_C4_witness :
    "kill_participation" ∈ columnsOf (add_derived_features dfC4) ∧
    cellAt (add_derived_features dfC4) "kill_participation" 0 =
      (if (0 : ℚ) < 1/2 then Cell.num ((1 + 0) / max 1 ((1 : ℚ)/2)) else Cell.num 0) :=
  (claim_C4_amended_kp_formula dfC4).1 0 1 0 (1/2) (by decide) (by decide) (by decide)
    (by decide) rfl rfl rfl

/-- Claim C2: for every well-typed frame whose derived-feature source columns
are numeric where present, after the full preprocessing pipeline no numeric
(float64/int64) column and no categorical (object) column contains a missing
value; moreover every missing entry of a numeric column has been replaced
with 0 and every missing entry of an object column with the sentinel
"unknown" (for columns the later stages do not retype or overwrite: not the
`date` column, not the flag columns cast to bool, and not a column named like
a derived feature). -/
theorem claim_C2_no_missing_after_preprocess (df : DataFrame)
    (hwf : wfFrame df = true) (hsrc : sourceColsNumeric df = true) :
    (∀ c ∈ preprocess_data df,
      (numericDtype c.dtype || decide (c.dtype = Dtype.obj)) = true →
      Cell.missing ∉ c.cells) ∧
    (∀ n c i, getCol df n = some c → numericDtype c.dtype = true →
      n ≠ "date" → n ∉ boolColNames → n ≠ "kda" → n ≠ "kill_participation" →
      i < nrows df → cellAt df n i = Cell.missing →
      cellAt (preprocess_data df) n i = Cell.num 0) ∧
    (∀ n c i, getCol df n = some c → c.dtype = Dtype.obj →
      n ≠ "date" → n ∉ boolColNames → n ≠ "kda" → n ≠ "kill_participation" →
      i < nrows df → cellAt df n i = Cell.missing →
      cellAt (preprocess_data df) n i = Cell.str "unknown") := by
  refine ⟨?_, ?_, ?_⟩
  case refine_2 =>
    intro n c i hget hnum hnd hnb hka hkp hi hmiss
    rw [cellAt_preprocess_ne df n c i hwf hget hnum hnd hnb hka hkp hi, hmiss]
    rfl
  case refine_3 =>
    intro n c i hget hobj hnd hnb hka hkp hi hmiss
    rw [cellAt_preprocess_ne_obj df n c i hwf hget hobj hnd hnb hka hkp hi, hmiss]
    rfl
  intro c hc hd
  have hc2 : c ∈ addKp (addKda (convert_data_types (handle_missing_values df))) := hc
  rcases mem_addKp_cases hc2 with hc3 | ⟨hcond2, hceq⟩
  · rcases mem_addKda_cases hc3 with hc4 | ⟨hcond1, hceq⟩
    · rcases List.mem_map.mp hc4 with ⟨c1, hc1, he1⟩
      rcases convertCol_cases c1 with hcc | hcc | hcc
      · have hceq : c = c1 := by rw [← he1, hcc]
        rcases List.mem_map.mp hc1 with ⟨c0, _, he0⟩
        have hceq2 : c = handleCol c0 := by rw [hceq, ← he0]
        rw [hceq2] at hd ⊢
        exact missing_not_mem_handleCol c0 hd
      · have hdt : c.dtype = Dtype.datetime := by rw [← he1]; exact hcc
        rw [hdt] at hd
        simp [numericDtype] at hd
      · have hdt : c.dtype = Dtype.bool := by rw [← he1]; exact hcc
        rw [hdt] at hd
        simp [numericDtype] at hd
    · have hk : "kills" ∈ columnsOf df := by
        rw [← columnsOf_stage2 df]
        exact hcond1.1
      have hd2 : "deaths" ∈ columnsOf df := by
        rw [← columnsOf_stage2 df]
        exact hcond1.2.1
      have ha : "assists" ∈ columnsOf df := by
        rw [← columnsOf_stage2 df]
        exact hcond1.2.2
      rw [hceq]
      intro hmem
      rcases kdaSeries_stage2_num df hwf hsrc hk hd2 ha Cell.missing hmem with ⟨q, hq⟩
      exact absurd hq (by simp)
  · have hcond2b : "kills" ∈ columnsOf df ∧ "assists" ∈ columnsOf df ∧
        "teamkills" ∈ columnsOf df := by
      have := (cond2_addKda _).mp hcond2
      rw [columnsOf_stage2 df] at this
      exact this
    rw [hceq]
    intro hmem
    rw [Col.mk.injEq] at hceq
    have hcells : (⟨"kill_participation", Dtype.float64,
        kpSeries (addKda (convert_data_types (handle_missing_values df)))⟩ : Col).cells =
        kpSeries (convert_data_types (handle_missing_values df)) := kpSeries_addKda _
    rw [hcells] at hmem
    rcases kpSeries_stage2_num df hwf hsrc hcond2b.1 hcond2b.2.1 hcond2b.2.2
      Cell.missing hmem with ⟨q, hq⟩
    exact absurd hq (by simp)

/-- Claim C2 witness: on a frame with a NaN in the float kills column and a
NaN in the object playername column, preprocessing turns the missing kills
entry into 0 and the missing playername entry into "unknown". -/
theorem claim_C2_witness :
    cellAt (preprocess_data dfC2) "kills" 0 = Cell.num 0 ∧
    cellAt (preprocess_data dfC2) "playername" 0 = Cell.str "unknown" :=
  ⟨(claim_C2_no_missing_after_preprocess dfC2 (by decide) (by decide)).2.1 "kills"
      ⟨"kills", Dtype.float64, [Cell.missing]⟩ 0 (by decide) (by decide) (by decide)
      (by decide) (by decide) (by decide) (by decide) (by decide),
   (claim_C2_no_missing_after_preprocess dfC2 (by decide) (by decide)).2.2 "playername"
      ⟨"playername", Dtype.obj, [Cell.missing]⟩ 0 (by decide) (by decide) (by decide)
      (by decide) (by decide) (by decide) (by decide) (by decide)⟩

/-- Claim C7: for a frame containing the grouping column and a binary (0/1)
result column, every distinct group value gets an entry whose games_played is
the group's row count, whose wins is the sum of the group's results, and whose
win_rate is exactly wins/games_played, a value in [0, 1]. -/
theorem claim_C7_win_rates (df : DataFrame) (g : String)
    (hwf : wfFrame df = true)
    (hg : g ∈ columnsOf df) (hr : "result" ∈ columnsOf df)
    (hbin : ∀ i, i < nrows df →
      cellAt df "result" i = Cell.num 0 ∨ cellAt df "result" i = Cell.num 1) :
    ∀ k ∈ distinctVals (colCells df g),
      ({ key := k, games_played := (groupRows df g k).length,
         wins := winsOf (groupResultCells df g k),
         win_rate := Cell.num (winsOf (groupResultCells df g k) /
           ((groupRows df g k).length : ℚ)) } : WinRateEntry) ∈ calculate_win_rates df g ∧
      0 ≤ winsOf (groupResultCells df g k) / ((groupRows df g k).length : ℚ) ∧
      winsOf (groupResultCells df g k) / ((groupRows df g k).length : ℚ) ≤ 1 := by
  intro k hk
  obtain ⟨cg, hcg⟩ := getCol_some_of_mem hg
  obtain ⟨hkmem, hkne⟩ := mem_distinctVals.mp hk
  have hcells : colCells df g = cg.cells := by
    unfold colCells
    rw [hcg]
  rw [hcells] at hkmem
  obtain ⟨j, hj, hjk⟩ := List.getElem_of_mem hkmem
  obtain ⟨hlen, _⟩ := wfFrame_spec hwf (List.mem_of_find?_eq_some hcg)
  have hjn : j < nrows df := by
    rw [← hlen]
    exact hj
  have hcellj : cellAt df g j = k := by
    rw [cellAt_colCells_getElem df g cg j hcg hj]
    exact hjk
  have hjmem : j ∈ groupRows df g k := by
    unfold groupRows
    rw [List.mem_filter]
    refine ⟨List.mem_range.mpr hjn, ?_⟩
    rw [hcellj]
    simp
  have hne0 : (groupRows df g k).length ≠ 0 := by
    intro h0
    rw [List.length_eq_zero] at h0
    rw [h0] at hjmem
    exact List.not_mem_nil j hjmem
  have hbin2 : ∀ x ∈ groupResultCells df g k, x = Cell.num 0 ∨ x = Cell.num 1 := by
    intro x hx
    rcases List.mem_map.mp hx with ⟨i, hi, he⟩
    have hin : i < nrows df := List.mem_range.mp (List.mem_filter.mp hi).1
    rw [← he]
    exact hbin i hin
  have hnumq : ∀ x ∈ groupResultCells df g k, ∃ q, x = Cell.num q := by
    intro x hx
    rcases hbin2 x hx with h | h
    · exact ⟨0, h⟩
    · exact ⟨1, h⟩
  have hcount : countOf (groupResultCells df g k) = (groupRows df g k).length := by
    rw [countOf_eq_length hnumq]
    unfold groupResultCells
    rw [List.length_map]
  have hmem : mkWinRateEntry df g k ∈ calculate_win_rates df g := by
    unfold calculate_win_rates
    rw [if_pos ⟨hg, hr⟩]
    exact List.mem_map.mpr ⟨k, hk, rfl⟩
  have hentry : mkWinRateEntry df g k =
      { key := k, games_played := (groupRows df g k).length,
        wins := winsOf (groupResultCells df g k),
        win_rate := Cell.num (winsOf (groupResultCells df g k) /
          ((groupRows df g k).length : ℚ)) } := by
    unfold mkWinRateEntry
    rw [hcount, if_neg hne0]
  obtain ⟨hb0, hb1⟩ := winsOf_bounds hbin2
  have hlen2 : ((groupResultCells df g k).length : ℚ) = ((groupRows df g k).length : ℚ) := by
    unfold groupResultCells
    rw [List.length_map]
  have hpos : (0 : ℚ) < ((groupRows df g k).length : ℚ) := by
    have := Nat.pos_of_ne_zero hne0
    exact_mod_cast this
  refine ⟨hentry ▸ hmem, ?_, ?_⟩
  · exact div_nonneg hb0 (Nat.cast_nonneg _)
  · rw [div_le_one hpos, ← hlen2]
    exact hb1

/-- Claim C7 witness: on a frame with teams A, A, B and results 1, 0, 1, team
A's entry has the claimed shape and its win rate lies in [0, 1]. -/
theorem claim_C7_witness :
    ({ key := Cell.str "A",
       games_played := (groupRows dfC7 "teamname" (Cell.str "A")).length,
       wins := winsOf (groupResultCells dfC7 "teamname" (Cell.str "A")),
       win_rate := Cell.num (winsOf (groupResultCells dfC7 "teamname" (Cell.str "A")) /
         ((groupRows dfC7 "teamname" (Cell.str "A")).length : ℚ)) } : WinRateEntry)
      ∈ calculate_win_rates dfC7 "teamname" ∧
    0 ≤ winsOf (groupResultCells dfC7 "teamname" (Cell.str "A")) /
        ((groupRows dfC7 "teamname" (Cell.str "A")).length : ℚ) ∧
    winsOf (groupResultCells dfC7 "teamname" (Cell.str "A")) /
        ((groupRows dfC7 "teamname" (Cell.str "A")).length : ℚ) ≤ 1 :=
  claim_C7_win_rates dfC7 "teamname" (by decide) (by decide) (by decide)
    (by decide) (Cell.str "A") (by decide)

/-- Claim C8: looking up a key with no matching row yields the structured
not-found response; when a row matches, the response is success built from the
FIRST matching row (several matches are not an error), with every field made
JSON-safe (missing becomes null, datetimes become strings, numbers stay plain
numbers). -/
theorem claim_C8_record_lookup (df : DataFrame) (id : String) :
    ((∀ i, i < nrows df → cellAt df "gameid" i ≠ Cell.str id) →
      get_record df id =
        RecordResponse.error ("Registro com ID " ++ id ++ " não encontrado")) ∧
    (∀ i, i < nrows df → cellAt df "gameid" i = Cell.str id →
      (∀ j, j < i → cellAt df "gameid" j ≠ Cell.str id) →
      get_record df id = RecordResponse.success
        (df.map (fun c => (c.name, jsonSafeCell (c.cells.getD i Cell.missing))))) := by
  constructor
  · intro hnone
    have h1 : firstMatchIdx df id = none := by
      unfold firstMatchIdx
      rw [List.find?_eq_none]
      intro j hj
      rw [List.mem_range] at hj
      simp only [decide_eq_true_eq]
      exact hnone j hj
    unfold get_record get_record_by_id
    rw [h1]
    rfl
  · intro i hi hmatch hfirst
    have h1 : firstMatchIdx df id = some i := by
      unfold firstMatchIdx
      apply find?_range_first _ (nrows df) i hi
      · simp only [decide_eq_true_eq]
        exact hmatch
      · intro j hj
        simp only [decide_eq_false_iff_not]
        exact hfirst j hj
    unfold get_record get_record_by_id
    rw [h1]
    show RecordResponse.success ((rowRecord df i).map (fun p => (p.1, jsonSafeCell p.2))) = _
    unfold rowRecord
    rw [List.map_map]
    rfl

/-- Claim C8 witness: id G1 matches rows 1 and 2 of the sample frame; lookup
returns the first match (row 1) as a success with JSON-safe fields. -/
theorem claim_C8_witness :
    get_record dfC8 "G1" = RecordResponse.success
      (dfC8.map (fun c => (c.name, jsonSafeCell (c.cells.getD 1 Cell.missing)))) :=
  (claim_C8_record_lookup dfC8 "G1").2 1 (by decide) (by decide) (by decide)

/-- Claim C6: for a categorical column with no missing values and more than
top_n distinct values, the bar chart shows exactly the top_n
most-frequent-count groups (every shown count dominates every dropped count),
and the pie chart shows those top_n groups plus one synthetic `Outros` bucket
whose count is the column's total count minus the sum of the top_n counts —
top_n + 1 groups in all. -/
theorem claim_C6_bar_pie_capping (df : DataFrame) (column : String) (top_n : Nat)
    (hc : column ∈ columnsOf df)
    (hnm : Cell.missing ∉ colCells df column)
    (hdist : top_n < (distinctVals (colCells df column)).length) :
    create_bar_chart df column top_n =
      Artifact.barChart column ((value_counts (colCells df column)).take top_n) ∧
    ((value_counts (colCells df column)).take top_n).length = top_n ∧
    (∀ a ∈ (value_counts (colCells df column)).take top_n,
      ∀ b ∈ (value_counts (colCells df column)).drop top_n, b.2 ≤ a.2) ∧
    create_pie_chart df column top_n =
      Artifact.pieChart column ((value_counts (colCells df column)).take top_n ++
        [(Cell.str "Outros",
          (colCells df column).length -
            sumCounts ((value_counts (colCells df column)).take top_n))]) ∧
    ((value_counts (colCells df column)).take top_n ++
        [(Cell.str "Outros",
          (colCells df column).length -
            sumCounts ((value_counts (colCells df column)).take top_n))]).length =
      top_n + 1 := by
  have hvclen : top_n < (value_counts (colCells df column)).length := by
    rw [value_counts_length]
    exact hdist
  have huniq : top_n < (uniqueCells (colCells df column)).length := by
    rw [uniqueCells_eq_distinctVals hnm]
    exact hdist
  have htot : sumCounts (value_counts (colCells df column)) = (colCells df column).length := by
    rw [sumCounts_value_counts]
    have hfe : (colCells df column).filter (fun c => decide (c ≠ Cell.missing)) =
        colCells df column := by
      rw [List.filter_eq_self]
      intro a ha
      simp only [decide_eq_true_eq]
      intro he
      exact hnm (he ▸ ha)
    rw [hfe]
  refine ⟨?_, ?_, ?_, ?_, ?_⟩
  · unfold create_bar_chart
    rw [if_pos hc]
  · rw [List.length_take]
    omega
  · intro a ha b hb
    exact pairwise_take_drop (value_counts_pairwise _) top_n a ha b hb
  · have hpie : create_pie_chart df column top_n =
        Artifact.pieChart column
          (if top_n < (uniqueCells (colCells df column)).length then
            (value_counts (colCells df column)).take top_n ++
              [(Cell.str "Outros",
                sumCounts (value_counts (colCells df column)) -
                  sumCounts ((value_counts (colCells df column)).take top_n))]
          else (value_counts (colCells df column)).take top_n) := by
      unfold create_pie_chart
      rw [if_pos hc]
    rw [hpie, if_pos huniq, htot]
  · rw [List.length_append, List.length_take, List.length_singleton]
    omega

/-- Claim C6 witness: the champion column Ahri, Ahri, Zed, Ahri, Zed, Lux with
top_n = 2 gives a 2-group bar chart and a 3-group pie chart with
`Outros = 6 - 5 = 1`. -/
theorem claim_C6_witness :
    create_bar_chart dfC6 "champion" 2 =
      Artifact.barChart "champion" ((value_counts (colCells dfC6 "champion")).take 2) ∧
    ((value_counts (colCells dfC6 "champion")).take 2).length = 2 ∧
    (∀ a ∈ (value_counts (colCells dfC6 "champion")).take 2,
      ∀ b ∈ (value_counts (colCells dfC6 "champion")).drop 2, b.2 ≤ a.2) ∧
    create_pie_chart dfC6 "champion" 2 =
      Artifact.pieChart "champion" ((value_counts (colCells dfC6 "champion")).take 2 ++
        [(Cell.str "Outros",
          (colCells dfC6 "champion").length -
            sumCounts ((value_counts (colCells dfC6 "champion")).take 2))]) ∧
    ((value_counts (colCells dfC6 "champion")).take 2 ++
        [(Cell.str "Outros",
          (colCells dfC6 "champion").length -
            sumCounts ((value_counts (colCells dfC6 "champion")).take 2))]).length = 2 + 1 :=
  claim_C6_bar_pie_capping dfC6 "champion" 2 (by decide) (by decide) (by decide)

/-- Claim C10: a record whose numeric result value is missing before
preprocessing is counted, after the pipeline, as a played, lost game: its
result becomes 0, and its group's entry counts it in games_played (the other
group rows plus one) while it adds nothing to wins (wins is the sum over the
other group rows only). -/
theorem claim_C10_missing_result_counts_as_loss (df : DataFrame) (g : String) (i : Nat)
    (cres : Col)
    (hwf : wfFrame df = true)
    (hg : g ∈ columnsOf df)
    (hres : getCol df "result" = some cres)
    (hnum : numericDtype cres.dtype = true)
    (hi : i < nrows df)
    (hmiss : cellAt df "result" i = Cell.missing)
    (hkey : cellAt (preprocess_data df) g i ≠ Cell.missing) :
    cellAt (preprocess_data df) "result" i = Cell.num 0 ∧
    ({ key := cellAt (preprocess_data df) g i,
       games_played :=
         ((groupRows (preprocess_data df) g (cellAt (preprocess_data df) g i)).filter
           (fun j => decide (j ≠ i))).length + 1,
       wins := winsOf (((groupRows (preprocess_data df) g
           (cellAt (preprocess_data df) g i)).filter (fun j => decide (j ≠ i))).map
           (fun j => cellAt (preprocess_data df) "result" j)),
       win_rate := Cell.num (winsOf (((groupRows (preprocess_data df) g
           (cellAt (preprocess_data df) g i)).filter (fun j => decide (j ≠ i))).map
           (fun j => cellAt (preprocess_data df) "result" j)) /
         ((((groupRows (preprocess_data df) g (cellAt (preprocess_data df) g i)).filter
           (fun j => decide (j ≠ i))).length + 1 : Nat) : ℚ)) } : WinRateEntry)
      ∈ calculate_win_rates (preprocess_data df) g := by
  have hz : cellAt (preprocess_data df) "result" i = Cell.num 0 := by
    show cellAt (add_derived_features (convert_data_types (handle_missing_values df)))
      "result" i = Cell.num 0
    rw [cellAt_add_derived_ne _ _ _ (by decide) (by decide),
      cellAt_stage2_fill_at df "result" cres hwf hres hnum (by decide) (by decide) i hi,
      hmiss]
    rfl
  refine ⟨hz, ?_⟩
  have hPnum : ∀ j, j < nrows df →
      ∃ q, cellAt (preprocess_data df) "result" j = Cell.num q := by
    intro j hj
    rcases cellAt_stage2_num df "result" cres hwf hres hnum (by decide) (by decide) j hj
      with ⟨q, hq⟩
    refine ⟨q, ?_⟩
    show cellAt (add_derived_features (convert_data_types (handle_missing_values df)))
      "result" j = Cell.num q
    rw [cellAt_add_derived_ne _ _ _ (by decide) (by decide)]
    exact hq
  have hg2 : g ∈ columnsOf (preprocess_data df) := mem_columnsOf_preprocess_of_mem df g hg
  have hr2 : "result" ∈ columnsOf (preprocess_data df) := by
    apply mem_columnsOf_preprocess_of_mem
    apply mem_of_getCol_isSome
    rw [hres]
    rfl
  have hiP : i < nrows (preprocess_data df) := by
    rw [nrows_preprocess]
    exact hi
  have hklt : i < (colCells (preprocess_data df) g).length := by
    by_contra hge
    push_neg at hge
    apply hkey
    unfold cellAt
    rw [List.getD_eq_getElem?_getD, List.getElem?_eq_none hge]
    rfl
  have hkval : cellAt (preprocess_data df) g i = (colCells (preprocess_data df) g)[i] := by
    unfold cellAt
    rw [List.getD_eq_getElem?_getD, List.getElem?_eq_getElem hklt]
    rfl
  have hkdist : cellAt (preprocess_data df) g i ∈
      distinctVals (colCells (preprocess_data df) g) := by
    apply mem_distinctVals.mpr
    refine ⟨?_, hkey⟩
    rw [hkval]
    exact List.getElem_mem hklt
  have himem : i ∈ groupRows (preprocess_data df) g (cellAt (preprocess_data df) g i) := by
    unfold groupRows
    rw [List.mem_filter]
    exact ⟨List.mem_range.mpr hiP, by simp⟩
  have hnd : (groupRows (preprocess_data df) g (cellAt (preprocess_data df) g i)).Nodup :=
    List.Nodup.filter _ (List.nodup_range _)
  have hsplit := length_split_at_mem hnd himem
  have hgrpnum : ∀ x ∈ groupResultCells (preprocess_data df) g
      (cellAt (preprocess_data df) g i), ∃ q, x = Cell.num q := by
    intro x hx
    rcases List.mem_map.mp hx with ⟨j, hj, he⟩
    have hjn : j < nrows df := by
      rw [← nrows_preprocess df]
      exact List.mem_range.mp (List.mem_filter.mp hj).1
    rcases hPnum j hjn with ⟨q, hq⟩
    exact ⟨q, by rw [← he]; exact hq⟩
  have hcount : countOf (groupResultCells (preprocess_data df) g
      (cellAt (preprocess_data df) g i)) =
      ((groupRows (preprocess_data df) g (cellAt (preprocess_data df) g i)).filter
        (fun j => decide (j ≠ i))).length + 1 := by
    rw [countOf_eq_length hgrpnum]
    unfold groupResultCells
    rw [List.length_map]
    exact hsplit
  have hwins : winsOf (groupResultCells (preprocess_data df) g
      (cellAt (preprocess_data df) g i)) =
      winsOf (((groupRows (preprocess_data df) g
        (cellAt (preprocess_data df) g i)).filter (fun j => decide (j ≠ i))).map
        (fun j => cellAt (preprocess_data df) "result" j)) := by
    exact winsOf_split_at_mem _ _ i hnd himem hz
  have hne0 : countOf (groupResultCells (preprocess_data df) g
      (cellAt (preprocess_data df) g i)) ≠ 0 := by
    rw [hcount]
    omega
  have hmem : mkWinRateEntry (preprocess_data df) g (cellAt (preprocess_data df) g i) ∈
      calculate_win_rates (preprocess_data df) g := by
    unfold calculate_win_rates
    rw [if_pos ⟨hg2, hr2⟩]
    exact List.mem_map.mpr ⟨_, hkdist, rfl⟩
  have hentry : mkWinRateEntry (preprocess_data df) g (cellAt (preprocess_data df) g i) =
      { key := cellAt (preprocess_data df) g i,
        games_played :=
          ((groupRows (preprocess_data df) g (cellAt (preprocess_data df) g i)).filter
            (fun j => decide (j ≠ i))).length + 1,
        wins := winsOf (((groupRows (preprocess_data df) g
            (cellAt (preprocess_data df) g i)).filter (fun j => decide (j ≠ i))).map
            (fun j => cellAt (preprocess_data df) "result" j)),
        win_rate := Cell.num (winsOf (((groupRows (preprocess_data df) g
            (cellAt (preprocess_data df) g i)).filter (fun j => decide (j ≠ i))).map
            (fun j => cellAt (preprocess_data df) "result" j)) /
          ((((groupRows (preprocess_data df) g (cellAt (preprocess_data df) g i)).filter
            (fun j => decide (j ≠ i))).length + 1 : Nat) : ℚ)) } := by
    unfold mkWinRateEntry
    rw [if_neg hne0, hcount, hwins]
  exact hentry ▸ hmem

/-- Claim C10 witness: in a frame with team A twice and results [1, NaN], the
second record's missing result becomes 0 and team A's entry counts it as a
played game contributing no win. -/
theorem claim_C10_witness :
    cellAt (preprocess_data dfC10) "result" 1 = Cell.num 0 ∧
    ({ key := cellAt (preprocess_data dfC10) "teamname" 1,
       games_played :=
         ((groupRows (preprocess_data dfC10) "teamname"
             (cellAt (preprocess_data dfC10) "teamname" 1)).filter
           (fun j => decide (j ≠ 1))).length + 1,
       wins := winsOf (((groupRows (preprocess_data dfC10) "teamname"
           (cellAt (preprocess_data dfC10) "teamname" 1)).filter
             (fun j => decide (j ≠ 1))).map
           (fun j => cellAt (preprocess_data dfC10) "result" j)),
       win_rate := Cell.num (winsOf (((groupRows (preprocess_data dfC10) "teamname"
           (cellAt (preprocess_data dfC10) "teamname" 1)).filter
             (fun j => decide (j ≠ 1))).map
           (fun j => cellAt (preprocess_data dfC10) "result" j)) /
         ((((groupRows (preprocess_data dfC10) "teamname"
             (cellAt (preprocess_data dfC10) "teamname" 1)).filter
           (fun j => decide (j ≠ 1))).length + 1 : Nat) : ℚ)) } : WinRateEntry)
      ∈ calculate_win_rates (preprocess_data dfC10) "teamname" :=
  claim_C10_missing_result_counts_as_loss dfC10 "teamname" 1
    ⟨"result", Dtype.float64, [Cell.num 1, Cell.missing]⟩
    (by decide) (by decide) (by decide) (by decide) (by decide) (by decide) (by decide)
